import Mathlib

/-!
Verification of the tawny-density spatial containment and suburb-assignment
engine against its specification.

The C++ sources are shallowly embedded: `double` coordinates become exact
rationals (`ℚ`), C++ floating-point literals such as `1e-12`, `1e-20` and
`1e300` become the corresponding rational constants, fallible code returns
`Except`, and the `nlohmann::json` document model becomes the inductive
`Json` below.  Two implementations exist in the repository and both are
embedded where claims cite both:

* namespace `suburb`  — `tawny_density/suburb.cpp` (the library module):
  crossing-count `pointInRing`, `pointInPolygon` with the `1e-12`-shifted
  bounding-box fast reject, name detection and GeoJSON ingestion;
* namespace `mainapp` — `tawny_density/main.cpp` (the standalone program):
  toggle-style `pointInRing` with the `1e-20` denominator guard, plain
  bounding-box rejects, and the first-match count aggregation loop.
-/

namespace suburb

/-- Embeds `struct Point { double lon{}, lat{}; }`. -/
structure Point where
  lon : ℚ
  lat : ℚ
deriving DecidableEq, Repr

/-- Embeds `struct Ring { vector<Point> points; }`. -/
structure Ring where
  points : List Point
deriving DecidableEq, Repr

/-- Embeds `struct Polygon { vector<Ring> rings; double minLon{}, minLat{}, maxLon{}, maxLat{}; }`. -/
structure Polygon where
  rings : List Ring
  minLon : ℚ
  minLat : ℚ
  maxLon : ℚ
  maxLat : ℚ
deriving DecidableEq, Repr

/-- Embeds `struct Suburb { string name; vector<Polygon> polys; double minLon{}, minLat{}, maxLon{}, maxLat{}; }`. -/
structure Suburb where
  name : String
  polys : List Polygon
  minLon : ℚ
  minLat : ℚ
  maxLon : ℚ
  maxLat : ℚ
deriving DecidableEq, Repr

/-- The C++ literal `1e-12` used in the `pointInPolygon` fast reject of suburb.cpp. -/
def e12 : ℚ := 1 / 10 ^ 12

/-- The C++ literal `1e-20` used in the `pointInRing` denominator of main.cpp. -/
def e20 : ℚ := 1 / 10 ^ 20

/-- The C++ literal `1e300` used as the bounding-box sentinel. -/
def big : ℚ := 10 ^ 300

/-- A four-component bounding box, standing for the four `double` out-parameters
`(minLon, minLat, maxLon, maxLat)` that the C++ code passes around. -/
structure Bounds where
  minLon : ℚ
  minLat : ℚ
  maxLon : ℚ
  maxLat : ℚ
deriving DecidableEq, Repr

/-- The sentinel initialisation `minLon = minLat = 1e300; maxLon = maxLat = -1e300`. -/
def sentinelBounds : Bounds := ⟨big, big, -big, -big⟩

/-- One step of the bound-accumulating loop body in `ringBounds`. -/
def boundsStep (b : Bounds) (p : Point) : Bounds :=
  ⟨min b.minLon p.lon, min b.minLat p.lat, max b.maxLon p.lon, max b.maxLat p.lat⟩

/-- Embeds `void ringBounds(const Ring&, double*, double*, double*, double*)`
(suburb.cpp lines 52-61): initialise to the sentinels, then fold min/max over
the ring's points. -/
def ringBounds (ring : Ring) : Bounds :=
  ring.points.foldl boundsStep sentinelBounds

/-- The component-wise bounding-box union (min of mins, max of maxes) used by
ingestion when folding ring bounds into polygon bounds, polygon bounds into
suburb bounds, and suburb bounds into the global bounds. -/
def bbUnion (a b : Bounds) : Bounds :=
  ⟨min a.minLon b.minLon, min a.minLat b.minLat, max a.maxLon b.maxLon, max a.maxLat b.maxLat⟩

/-- Embeds the per-edge test of `pointInRing` (suburb.cpp lines 100-122): the
edge `(p1, p2)` counts one crossing when the point's latitude is strictly above
the edge's lower latitude and at most its upper latitude, the point's longitude
is at most the edge's larger longitude, and the edge is vertical or the point's
longitude is at most the longitude where the edge meets the horizontal line
through the point.  The division is only reached when the latitude-range test
has succeeded, so its denominator is nonzero there. -/
def edgeCross (p1 p2 point : Point) : Bool :=
  (decide (min p1.lat p2.lat < point.lat) &&
   decide (point.lat ≤ max p1.lat p2.lat) &&
   decide (point.lon ≤ max p1.lon p2.lon)) &&
  (decide (p1.lon = p2.lon) ||
   decide (point.lon ≤ (point.lat - p1.lat) * (p2.lon - p1.lon) / (p2.lat - p1.lat) + p1.lon))

/-- Embeds `bool pointInRing(const Ring&, const Point&)` from suburb.cpp
(lines 93-127, the crossing-count ray-casting version): count the edges
`(points[i], points[(i+1) % n])` that cross a rightward horizontal ray from
the point, and report inside exactly when the count is odd. -/
def pointInRing (ring : Ring) (point : Point) : Bool :=
  let n := ring.points.length
  ((List.range n).countP (fun i =>
      edgeCross (ring.points.getD i ⟨0, 0⟩) (ring.points.getD ((i + 1) % n) ⟨0, 0⟩) point)) % 2 == 1

/-- Embeds the fast bounding-box reject at the front of `pointInPolygon`
(suburb.cpp lines 139-142): note every comparison bound is shifted by `+1e-12`. -/
def fastReject (poly : Polygon) (point : Point) : Bool :=
  decide (point.lon < poly.minLon + e12) || decide (point.lon > poly.maxLon + e12) ||
  decide (point.lat < poly.minLat + e12) || decide (point.lat > poly.maxLat + e12)

/-- Embeds `bool pointInPolygon(const Polygon&, const Point&)` (suburb.cpp
lines 137-152): fast reject, then empty-ring check, then outer-ring test,
then the hole loop. -/
def pointInPolygon (poly : Polygon) (point : Point) : Bool :=
  if fastReject poly point then false
  else
    match poly.rings with
    | [] => false
    | outer :: holes =>
      if !(pointInRing outer point) then false
      else !(holes.any (fun r => pointInRing r point))

/-- Modelled from the spec (§4.2 `PointInPolygon` steps 2-5): the pure
ring-based outer-minus-holes test applied directly to a ring list, with no
bounding-box involvement.  This is the specification-side definition that the
refinement claim compares `pointInPolygon` against. -/
def ringOuterMinusHoles (rings : List Ring) (point : Point) : Bool :=
  match rings with
  | [] => false
  | outer :: holes => pointInRing outer point && holes.all (fun r => !(pointInRing r point))

end suburb

namespace mainapp

/-- Embeds `bool pointInRing(const Ring&, const Point&)` from main.cpp
(lines 222-235, the toggle version): rings with fewer than 3 points are
rejected, then for each edge `(points[j], points[i])` with `j = i - 1 mod n`
the inside flag is toggled when the edge straddles the query latitude and the
query longitude is strictly left of the computed intersection, whose
denominator carries the `1e-20` guard. -/
def pointInRing (ring : suburb.Ring) (q : suburb.Point) : Bool :=
  let pts := ring.points
  let n := pts.length
  if n < 3 then false
  else
    (List.range n).foldl (fun inside i =>
      let a := pts.getD ((i + n - 1) % n) ⟨0, 0⟩
      let b := pts.getD i ⟨0, 0⟩
      if (decide (a.lat > q.lat) != decide (b.lat > q.lat)) &&
         decide (q.lon < (b.lon - a.lon) * (q.lat - a.lat) / (b.lat - a.lat + suburb.e20) + a.lon)
      then !inside else inside) false

/-- Embeds `bool pointInPolygon(const Polygon&, const Point&)` from main.cpp
(lines 238-253): plain (unshifted) bounding-box fast reject, then the
empty-ring check, the outer-ring test and the hole loop. -/
def pointInPolygon (poly : suburb.Polygon) (point : suburb.Point) : Bool :=
  if decide (point.lon < poly.minLon) || decide (point.lon > poly.maxLon) ||
     decide (point.lat < poly.minLat) || decide (point.lat > poly.maxLat) then false
  else
    match poly.rings with
    | [] => false
    | outer :: holes =>
      if !(pointInRing outer point) then false
      else !(holes.any (fun r => pointInRing r point))

/-- Embeds `bool pointInSuburb(const Suburb&, const Point&)` from main.cpp
(lines 262-276): suburb-level bounding-box reject, then any-of over the
suburb's polygons. -/
def pointInSuburb (s : suburb.Suburb) (point : suburb.Point) : Bool :=
  if decide (point.lon < s.minLon) || decide (point.lon > s.maxLon) ||
     decide (point.lat < s.minLat) || decide (point.lat > s.maxLat) then false
  else s.polys.any (fun poly => pointInPolygon poly point)

/-- Embeds the inner assignment loop of `main` (main.cpp lines 553-558): scan
the suburbs in order, and on the first suburb containing the point increment
that suburb's name in the count table and stop. -/
def assignPoint : List suburb.Suburb → (String → ℕ) → suburb.Point → (String → ℕ)
  | [], counts, _ => counts
  | s :: rest, counts, q =>
    if pointInSuburb s q then fun name => if name = s.name then counts name + 1 else counts name
    else assignPoint rest counts q

/-- Embeds the outer aggregation loop of `main` (main.cpp lines 550-559):
process the observation points one at a time through `assignPoint`. -/
def aggregate (suburbs : List suburb.Suburb) (obs : List suburb.Point) (counts : String → ℕ) :
    String → ℕ :=
  obs.foldl (fun c q => assignPoint suburbs c q) counts

end mainapp

namespace suburb

/-- A shallow model of the `nlohmann::json` document values that ingestion
consumes.  Object fields are listed in the map's iteration order (for
`nlohmann::json` that is the sorted key order of its `std::map`, and keys are
unique in any document the parser can produce). -/
inductive Json where
  | null
  | bool (b : Bool)
  | num (q : ℚ)
  | str (s : String)
  | arr (elems : List Json)
  | obj (fields : List (String × Json))

/-- Embeds `is_null()`. -/
def Json.isNull : Json → Bool
  | .null => true
  | _ => false

/-- Embeds `is_string()`. -/
def Json.isStr : Json → Bool
  | .str _ => true
  | _ => false

/-- Embeds `is_array()`. -/
def Json.isArr : Json → Bool
  | .arr _ => true
  | _ => false

/-- Embeds `is_number()` as far as `get<double>` is concerned. -/
def Json.isNum : Json → Bool
  | .num _ => true
  | _ => false

/-- Embeds `contains(key)`: true only on objects that hold the key. -/
def Json.contains (j : Json) (k : String) : Bool :=
  match j with
  | .obj fs => fs.any (fun kv => kv.1 == k)
  | _ => false

/-- Embeds `operator[](key)` on a const json object: the value stored at the
key.  The C++ behaviour on a missing key or non-object is undefined; every
use in the sources is either guarded by `contains` or feeds a value where the
model's `Json.null` reproduces the observed behaviour (iterating nothing). -/
def Json.get (j : Json) (k : String) : Json :=
  match j with
  | .obj fs => (((fs.find? (fun kv => kv.1 == k)).map Prod.snd).getD .null)
  | _ => .null

/-- Embeds the `nlohmann::json` range-for: arrays iterate their elements,
objects iterate their values, `null` iterates nothing, and primitive values
iterate the single value itself. -/
def Json.iterElems : Json → List Json
  | .null => []
  | .arr xs => xs
  | .obj fs => fs.map Prod.snd
  | .bool b => [.bool b]
  | .num q => [.num q]
  | .str s => [.str s]

/-- Embeds `at(i)` on a json value: throws on a non-array and on an index out
of range. -/
def Json.atIdx (j : Json) (i : ℕ) : Except String Json :=
  match j with
  | .arr xs =>
    match xs.get? i with
    | some v => Except.ok v
    | none => Except.error ("out_of_range: array index out of range")
  | _ => Except.error ("type_error.304: cannot use at() with a non-array")

/-- Embeds `get<double>()`: succeeds exactly on numbers. -/
def Json.getDouble : Json → Except String ℚ
  | .num q => Except.ok q
  | _ => Except.error ("type_error.302: type must be number")

/-- Embeds `value(key, default)` with a string default: throws type_error.306
on a non-object, returns the default when the key is missing, and throws
type_error.302 when the key is present with a non-string value. -/
def Json.valueStrE (j : Json) (k d : String) : Except String String :=
  match j with
  | .obj _ =>
    if j.contains k then
      match j.get k with
      | .str s => Except.ok s
      | _ => Except.error ("type_error.302: type must be string")
    else Except.ok d
  | _ => Except.error ("type_error.306: cannot use value() with a non-object")

/-- Embeds `value(key, default)` with a json default (used for the
`properties` bag): the stored value when the key is present, the default
otherwise.  Only ever called on objects in the sources. -/
def Json.valueJ (j : Json) (k : String) (d : Json) : Json :=
  if j.contains k then j.get k else d

/-- Embeds the candidate name-field list of `detectNameField`
(suburb.cpp lines 186-191). -/
def candidates : List String :=
  ["NAME", "Name", "name",
   "LOCALITY_NAME", "LOCALITY", "LOC_NAME",
   "vic_loca_2", "vic_loca_1", "vic_loca_",
   "SUBURB_NAME", "SuburbName", "suburb"]

/-- The fallback arm of `detectNameField`: the key of the first string-valued
property in iteration order, or the empty string when there is none.  On a
non-object bag whose iteration reaches a string value, the C++ `it2.key()`
call throws `invalid_iterator.207`, modelled as the error case. -/
def fallbackNameField : Json → Except String String
  | .obj fs =>
    Except.ok (match fs.find? (fun kv => kv.2.isStr) with
      | some kv => kv.1
      | none => "")
  | j =>
    if j.iterElems.any Json.isStr then
      Except.error ("invalid_iterator.207: cannot use key() with a non-object iterator")
    else Except.ok ("")

/-- Embeds `string detectNameField(const json&)` (suburb.cpp lines 184-214):
first candidate key present with a string value, otherwise the fallback scan. -/
def detectNameFieldE (props : Json) : Except String String :=
  match candidates.find? (fun k => props.contains k && (props.get k).isStr) with
  | some k => Except.ok k
  | none => fallbackNameField props

/-- Embeds the name resolution at suburb.cpp lines 247-248:
`name = nameField.empty() ? UNKNOWN : props.value(nameField, UNKNOWN)`. -/
def regionNameE (props : Json) : Except String String := do
  let nameField ← detectNameFieldE props
  if nameField = "" then Except.ok ("UNKNOWN")
  else Json.valueStrE props nameField ("UNKNOWN")

/-- Embeds the point parsing of `addPolygon`
(`Point pt{ p.at(0).get<double>(), p.at(1).get<double>() }`). -/
def parsePoint (p : Json) : Except String Point := do
  let a ← p.atIdx 0
  let lon ← a.getDouble
  let b ← p.atIdx 1
  let lat ← b.getDouble
  Except.ok ⟨lon, lat⟩

/-- Embeds the inner point loop of `addPolygon`: parse each coordinate pair
in order, aborting on the first malformed one. -/
def buildPoints : List Json → Except String (List Point)
  | [] => Except.ok []
  | p :: rest => do
    let pt ← parsePoint p
    let pts ← buildPoints rest
    Except.ok (pt :: pts)

/-- Embeds the ring-closure step of `addPolygon` (suburb.cpp lines 270-275):
append the first point when the ring is non-empty and its last point differs
from its first in either coordinate. -/
def closeRing (ps : List Point) : List Point :=
  match ps.head?, ps.getLast? with
  | some f, some l => if f.lon ≠ l.lon ∨ f.lat ≠ l.lat then ps ++ [f] else ps
  | _, _ => ps

/-- Embeds the per-ring body of `addPolygon`: parse the points of one ring
coordinate list and enforce closure. -/
def buildRing (ringCoords : Json) : Except String Ring := do
  let pts ← buildPoints ringCoords.iterElems
  Except.ok ⟨closeRing pts⟩

/-- Embeds the ring loop of `addPolygon`: build each ring in order. -/
def buildRings : List Json → Except String (List Ring)
  | [] => Except.ok []
  | rc :: rest => do
    let r ← buildRing rc
    let rs ← buildRings rest
    Except.ok (r :: rs)

/-- Embeds the `addPolygon` lambda of `loadSuburbsGeoJSON` (suburb.cpp lines
261-289): build the rings of one ring-group, then compute the polygon's
bounding box starting from `ringBounds(poly.rings.front())` and folding in the
remaining rings.  The C++ `front()` call on an empty ring vector is an
out-of-bounds access (undefined behaviour); the total embedding surfaces it
as the error case. -/
def addPolygonE (coords : Json) : Except String Polygon := do
  let rings ← buildRings coords.iterElems
  match rings with
  | [] => Except.error ("poly.rings.front() on an empty ring vector: out-of-bounds access")
  | r0 :: rest =>
    let b := rest.foldl (fun b r => bbUnion b (ringBounds r)) (ringBounds r0)
    Except.ok ⟨r0 :: rest, b.minLon, b.minLat, b.maxLon, b.maxLat⟩

/-- Embeds the suburb-side effect of `addPolygon`: fold the polygon's bounding
box into the suburb's and append the polygon. -/
def addPolygonToSuburb (s : Suburb) (coords : Json) : Except String Suburb := do
  let poly ← addPolygonE coords
  Except.ok ⟨s.name, s.polys ++ [poly],
    min s.minLon poly.minLon, min s.minLat poly.minLat,
    max s.maxLon poly.maxLon, max s.maxLat poly.maxLat⟩

/-- Embeds the `MultiPolygon` loop: add one polygon per coordinate element. -/
def addPolysList : Suburb → List Json → Except String Suburb
  | s, [] => Except.ok s
  | s, c :: rest => do
    let s' ← addPolygonToSuburb s c
    addPolysList s' rest

/-- Embeds the body of the feature loop of `loadSuburbsGeoJSON` (suburb.cpp
lines 241-316) for a single feature: skip features without geometry or with
null geometry, read the geometry type and the region name, then build the
suburb for `Polygon` / `MultiPolygon` geometries and skip other types.
Returns `none` for skipped features. -/
def processFeature (feat : Json) : Except String (Option Suburb) :=
  if !(feat.contains ("geometry")) || (feat.get ("geometry")).isNull then Except.ok none
  else
    let geom := feat.get ("geometry")
    do
      let type ← Json.valueStrE geom ("type") ("")
      let props := Json.valueJ feat ("properties") (Json.obj [])
      let name ← regionNameE props
      let s0 : Suburb := ⟨name, [], big, big, -big, -big⟩
      if type = "Polygon" then do
        let s ← addPolygonToSuburb s0 (geom.get ("coordinates"))
        Except.ok (some s)
      else if type = "MultiPolygon" then do
        let s ← addPolysList s0 (geom.get ("coordinates")).iterElems
        Except.ok (some s)
      else Except.ok none

/-- Embeds the feature loop of `loadSuburbsGeoJSON`: process the features in
order, appending produced suburbs and folding their bounds into the running
global bounds. -/
def processFeatures : List Json → List Suburb × Bounds → Except String (List Suburb × Bounds)
  | [], acc => Except.ok acc
  | feat :: rest, acc => do
    match ← processFeature feat with
    | none => processFeatures rest acc
    | some s =>
      processFeatures rest
        (acc.1 ++ [s], bbUnion acc.2 ⟨s.minLon, s.minLat, s.maxLon, s.maxLat⟩)

/-- Embeds `vector<Suburb> loadSuburbsGeoJSON(...)` (suburb.cpp lines
226-320).  The input is `none` when the file cannot be opened or parsed
(`ifstream` failure or a json parse exception), and `some gj` for a parsed
document; failures are the thrown `runtime_error`s plus the propagated json
exceptions of the feature loop. -/
def loadSuburbs (input : Option Json) : Except String (List Suburb × Bounds) :=
  match input with
  | none => Except.error ("Failed to open GeoJSON")
  | some gj =>
    if !(gj.contains ("features") && (gj.get ("features")).isArr) then
      Except.error ("Invalid GeoJSON (no features array)")
    else do
      let acc ← processFeatures (gj.get ("features")).iterElems ([], sentinelBounds)
      if acc.1 = [] then Except.error ("No suburb polygons loaded from GeoJSON")
      else Except.ok acc

end suburb

namespace suburb

/-- Structural well-formedness of one coordinate pair: an array with at least
two entries whose first two entries are numbers, so that `at(0)`, `at(1)` and
both `get<double>` calls succeed. -/
def pointOk : Json → Bool
  | .arr (a :: b :: _) => a.isNum && b.isNum
  | _ => false

/-- Structural well-formedness of one ring-group (`Polygon` coordinates, or
one element of `MultiPolygon` coordinates): it iterates at least one ring (so
`rings.front()` is in bounds) and every coordinate pair of every ring parses. -/
def ringGroupOk (coords : Json) : Bool :=
  !(coords.iterElems.isEmpty) && coords.iterElems.all (fun rc => rc.iterElems.all pointOk)

/-- Success condition of the name-resolution step on a property bag: either a
candidate key matches, or the fallback scan terminates without the
`invalid_iterator` throw of `key()` and without a `type_error.302` on the
final lookup (the latter is only reachable when a duplicated key — impossible
in a parsed `std::map`-backed document — puts a non-string first). -/
def fallbackNameOk : Json → Bool
  | .obj fs =>
    (match fs.find? (fun kv => kv.2.isStr) with
     | some kv =>
       kv.1 == "" ||
       (match fs.find? (fun kv2 => kv2.1 == kv.1) with
        | some kv2 => kv2.2.isStr
        | none => true)
     | none => true)
  | j => !(j.iterElems.any Json.isStr)

def nameStepOk (props : Json) : Bool :=
  candidates.any (fun k => props.contains k && (props.get k).isStr) || fallbackNameOk props

/-- The geometry type exactly as `geom.value("type", "")` computes it, or
`none` when that call throws (non-object geometry, or a non-string `type`). -/
def typeOfGeom (geom : Json) : Option String :=
  match geom with
  | .obj _ =>
    if geom.contains ("type") then
      match geom.get ("type") with
      | .str s => some s
      | _ => none
    else some ("")
  | _ => none

/-- Well-formedness of one feature: skipped features (no geometry, or null
geometry) are vacuously fine; otherwise the geometry type must be readable,
the name step must not throw, and area-type coordinates must be structurally
well formed. -/
def featOk (feat : Json) : Bool :=
  if !(feat.contains ("geometry")) || (feat.get ("geometry")).isNull then true
  else
    let geom := feat.get ("geometry")
    match typeOfGeom geom with
    | none => false
    | some t =>
      nameStepOk (Json.valueJ feat ("properties") (Json.obj [])) &&
      (if t = "Polygon" then ringGroupOk (geom.get ("coordinates"))
       else if t = "MultiPolygon" then (geom.get ("coordinates")).iterElems.all ringGroupOk
       else true)

/-- Whether a feature reaches the `suburbs.push_back` call: it has a non-null
geometry whose readable type is one of the two area types. -/
def producesRegion (feat : Json) : Bool :=
  feat.contains ("geometry") && !((feat.get ("geometry")).isNull) &&
  (((typeOfGeom (feat.get ("geometry"))).getD ("")) == "Polygon" ||
   ((typeOfGeom (feat.get ("geometry"))).getD ("")) == "MultiPolygon")

/-- The `features`-array check of `loadSuburbsGeoJSON`. -/
def hasFeaturesArray (gj : Json) : Bool :=
  gj.contains ("features") && (gj.get ("features")).isArr

/-- Modelled from the spec (§4.3 step 3 as amended): the region name described
purely in terms of property values — the string value of the first matching
candidate key, else the value of the first string-valued property unless its
key is the empty string, else the literal fallback. -/
def specRegionName (fs : List (String × Json)) : String :=
  match candidates.find? (fun k => (fs.find? (fun kv => kv.1 == k)).any (fun kv => kv.2.isStr)) with
  | some k =>
    match fs.find? (fun kv => kv.1 == k) with
    | some kv =>
      match kv.2 with
      | .str s => s
      | _ => "UNKNOWN"
    | none => "UNKNOWN"
  | none =>
    match fs.find? (fun kv => kv.2.isStr) with
    | some kv =>
      if kv.1 = "" then ("UNKNOWN")
      else
        match kv.2 with
        | .str s => s
        | _ => "UNKNOWN"
    | none => "UNKNOWN"

end suburb

namespace suburb

/-- A GeoJSON coordinate pair `[lon, lat]`. -/
def jpt (lon lat : ℚ) : Json := Json.arr [Json.num lon, Json.num lat]

/-- The `Polygon` coordinates of the plain 10×10 square (source ring open;
ingestion closes it). -/
def sqCoordsJson : Json :=
  Json.arr [Json.arr [jpt 0 0, jpt 10 0, jpt 10 10, jpt 0 10]]

/-- The closed 10×10 square ring as ingestion builds it. -/
def sqRing : Ring := ⟨[⟨0, 0⟩, ⟨10, 0⟩, ⟨10, 10⟩, ⟨0, 10⟩, ⟨0, 0⟩]⟩

/-- The ingested plain-square polygon with its cached bounding box. -/
def sqPoly : Polygon := ⟨[sqRing], 0, 0, 10, 10⟩

/-- The `Polygon` coordinates of the spec's square-with-hole example:
outer `[(0,0),(10,0),(10,10),(0,10)]`, hole `[(3,3),(7,3),(7,7),(3,7)]`. -/
def holeCoordsJson : Json :=
  Json.arr [Json.arr [jpt 0 0, jpt 10 0, jpt 10 10, jpt 0 10],
            Json.arr [jpt 3 3, jpt 7 3, jpt 7 7, jpt 3 7]]

/-- The closed hole ring as ingestion builds it. -/
def holeRing : Ring := ⟨[⟨3, 3⟩, ⟨7, 3⟩, ⟨7, 7⟩, ⟨3, 7⟩, ⟨3, 3⟩]⟩

/-- The ingested square-with-hole polygon with its cached bounding box. -/
def holePoly : Polygon := ⟨[sqRing, holeRing], 0, 0, 10, 10⟩

/-- A point inside the cached bounding box of the ingested squares but within
the `1e-12` low-longitude margin of the shifted fast reject. -/
def marginPt : Point := ⟨1 / 2000000000000, 5⟩

end suburb

namespace suburb

/-- A well-formed Polygon feature named Alpha over the plain square. -/
def featGood : Json :=
  Json.obj [("geometry", Json.obj [("coordinates", sqCoordsJson), ("type", Json.str ("Polygon"))]),
            ("properties", Json.obj [("NAME", Json.str ("Alpha"))])]

/-- A Polygon feature whose coordinates hold a non-numeric pair, so that
`get<double>` throws during ingestion. -/
def featBadCoords : Json :=
  Json.obj [("geometry", Json.obj [("coordinates", Json.arr [Json.arr [Json.arr [Json.str ("x"), Json.str ("y")]]]),
                                   ("type", Json.str ("Polygon"))]),
            ("properties", Json.obj [("NAME", Json.str ("Beta"))])]

/-- A parsed document with a `features` array holding one well-formed area
feature followed by one area feature with malformed coordinates. -/
def docMalformed : Json := Json.obj [("features", Json.arr [featGood, featBadCoords])]

end suburb

namespace mainapp

/-- A suburb named Alpha over the 0..10 square, as built first. -/
def suburbA : suburb.Suburb := ⟨"Alpha", [⟨[suburb.sqRing], 0, 0, 10, 10⟩], 0, 0, 10, 10⟩

/-- An overlapping suburb named Beta over the 5..15 square, built second. -/
def suburbB : suburb.Suburb :=
  ⟨"Beta", [⟨[⟨[⟨5, 5⟩, ⟨15, 5⟩, ⟨15, 15⟩, ⟨5, 15⟩, ⟨5, 5⟩]⟩], 5, 5, 15, 15⟩], 5, 5, 15, 15⟩

/-- An observation point contained in both overlapping suburbs. -/
def obsX : suburb.Point := ⟨7, 7⟩

/-- An observation point contained in neither suburb. -/
def obsY : suburb.Point := ⟨100, 100⟩

end mainapp

namespace suburb

theorem boundsFold_mono (l : List Point) (b : Bounds) :
    (l.foldl boundsStep b).minLon ≤ b.minLon ∧ (l.foldl boundsStep b).minLat ≤ b.minLat ∧
    b.maxLon ≤ (l.foldl boundsStep b).maxLon ∧ b.maxLat ≤ (l.foldl boundsStep b).maxLat := by
  induction l generalizing b with
  | nil => simp
  | cons p rest ih =>
    simp only [List.foldl_cons]
    obtain ⟨h1, h2, h3, h4⟩ := ih (boundsStep b p)
    exact ⟨le_trans h1 (min_le_left _ _), le_trans h2 (min_le_left _ _),
      le_trans (le_max_left _ _) h3, le_trans (le_max_left _ _) h4⟩

theorem boundsFold_mem (l : List Point) (b : Bounds) (p : Point) (hp : p ∈ l) :
    (l.foldl boundsStep b).minLon ≤ p.lon ∧ (l.foldl boundsStep b).minLat ≤ p.lat ∧
    p.lon ≤ (l.foldl boundsStep b).maxLon ∧ p.lat ≤ (l.foldl boundsStep b).maxLat := by
  induction l generalizing b with
  | nil => cases hp
  | cons q rest ih =>
    simp only [List.foldl_cons]
    rcases List.mem_cons.mp hp with rfl | hmem
    · obtain ⟨h1, h2, h3, h4⟩ := boundsFold_mono rest (boundsStep b p)
      exact ⟨le_trans h1 (min_le_right _ _), le_trans h2 (min_le_right _ _),
        le_trans (le_max_right _ _) h3, le_trans (le_max_right _ _) h4⟩
    · exact ih (boundsStep b q) hmem

theorem ringBounds_mem (ring : Ring) (p : Point) (hp : p ∈ ring.points) :
    (ringBounds ring).minLon ≤ p.lon ∧ (ringBounds ring).minLat ≤ p.lat ∧
    p.lon ≤ (ringBounds ring).maxLon ∧ p.lat ≤ (ringBounds ring).maxLat :=
  boundsFold_mem ring.points sentinelBounds p hp

theorem ringBounds_range (ring : Ring) :
    (ringBounds ring).minLon ≤ big ∧ (ringBounds ring).minLat ≤ big ∧
    -big ≤ (ringBounds ring).maxLon ∧ -big ≤ (ringBounds ring).maxLat :=
  boundsFold_mono ring.points sentinelBounds

/-- C9: `ringBounds` on an empty ring returns the sentinel bounds
`(1e300, 1e300, -1e300, -1e300)`, and this sentinel is an identity element for
the coordinate-wise bounding-box union on every bounds tuple whose mins are at
most `1e300` and maxes at least `-1e300` — which covers every tuple `ringBounds`
can produce, so the sentinel never wins a union against any real geometry. -/
theorem ringBounds_empty_sentinel_union_identity :
    ringBounds ⟨[]⟩ = ⟨big, big, -big, -big⟩ ∧
    (∀ b : Bounds, b.minLon ≤ big → b.minLat ≤ big → -big ≤ b.maxLon → -big ≤ b.maxLat →
      bbUnion b (ringBounds ⟨[]⟩) = b ∧ bbUnion (ringBounds ⟨[]⟩) b = b) ∧
    (∀ r : Ring, bbUnion (ringBounds r) (ringBounds ⟨[]⟩) = ringBounds r ∧
      bbUnion (ringBounds ⟨[]⟩) (ringBounds r) = ringBounds r) := by
  have hsent : ringBounds ⟨[]⟩ = ⟨big, big, -big, -big⟩ := rfl
  have hid : ∀ b : Bounds, b.minLon ≤ big → b.minLat ≤ big → -big ≤ b.maxLon → -big ≤ b.maxLat →
      bbUnion b (ringBounds ⟨[]⟩) = b ∧ bbUnion (ringBounds ⟨[]⟩) b = b := by
    intro b h1 h2 h3 h4
    obtain ⟨bm1, bm2, bm3, bm4⟩ := b
    rw [hsent]
    refine ⟨?_, ?_⟩
    · simp only [bbUnion, Bounds.mk.injEq]
      exact ⟨min_eq_left h1, min_eq_left h2, max_eq_left h3, max_eq_left h4⟩
    · simp only [bbUnion, Bounds.mk.injEq]
      exact ⟨min_eq_right h1, min_eq_right h2, max_eq_right h3, max_eq_right h4⟩
  refine ⟨hsent, hid, fun r => ?_⟩
  obtain ⟨h1, h2, h3, h4⟩ := ringBounds_range r
  exact hid (ringBounds r) h1 h2 h3 h4

theorem ringBounds_empty_sentinel_union_identity_witness :
    ((0 : ℚ) ≤ big ∧ (0 : ℚ) ≤ big ∧ -big ≤ (1 : ℚ) ∧ -big ≤ (1 : ℚ)) ∧
    bbUnion ⟨0, 0, 1, 1⟩ (ringBounds ⟨[]⟩) = ⟨0, 0, 1, 1⟩ := by
  have h1 : (0 : ℚ) ≤ big := by norm_num [big]
  have h3 : -big ≤ (1 : ℚ) := by norm_num [big]
  exact ⟨⟨h1, h1, h3, h3⟩,
    (ringBounds_empty_sentinel_union_identity.2.1 ⟨0, 0, 1, 1⟩ h1 h1 h3 h3).1⟩

theorem point_eq_of_coords {a l : Point} (h1 : a.lon = l.lon) (h2 : a.lat = l.lat) : a = l := by
  cases a; cases l; simp_all

/-- C8: every ring produced by ingestion is closed — `closeRing` yields a list
whose first and last points agree, appends the first point exactly when the
source list's last point differs from its first, and otherwise returns the
source list unchanged; consequently any ring built by `buildRing` has
coordinate-equal first and last points. -/
theorem ingested_ring_closed :
    (∀ ps : List Point,
      (closeRing ps).head? = (closeRing ps).getLast? ∧
      (ps.getLast? ≠ ps.head? → closeRing ps = ps ++ ps.head?.toList) ∧
      (ps.getLast? = ps.head? → closeRing ps = ps)) ∧
    (∀ coords ring, buildRing coords = Except.ok ring →
      ring.points.head? = ring.points.getLast?) := by
  have main : ∀ ps : List Point,
      (closeRing ps).head? = (closeRing ps).getLast? ∧
      (ps.getLast? ≠ ps.head? → closeRing ps = ps ++ ps.head?.toList) ∧
      (ps.getLast? = ps.head? → closeRing ps = ps) := by
    intro ps
    cases ps with
    | nil => simp [closeRing]
    | cons a rest =>
      have hhead : (a :: rest).head? = some a := rfl
      obtain ⟨l, hl⟩ : ∃ l, (a :: rest).getLast? = some l :=
        Option.isSome_iff_exists.mp (List.getLast?_isSome.mpr (by simp))
      by_cases hd : a.lon ≠ l.lon ∨ a.lat ≠ l.lat
      · have hcr : closeRing (a :: rest) = (a :: rest) ++ [a] := by
          simp only [closeRing, hhead, hl]
          rw [if_pos hd]
        have hne : a ≠ l := by
          intro h
          subst h
          rcases hd with h | h <;> exact h rfl
        refine ⟨?_, fun _ => by simp [hcr, hhead], fun heq => ?_⟩
        · rw [hcr]
          rw [List.getLast?_concat]
          rfl
        · rw [hl, hhead] at heq
          exact absurd (Option.some.inj heq) (Ne.symm hne)
      · push_neg at hd
        have hal : a = l := point_eq_of_coords hd.1 hd.2
        have hcr : closeRing (a :: rest) = a :: rest := by
          simp only [closeRing, hhead, hl]
          rw [if_neg]
          push_neg
          exact hd
        refine ⟨?_, fun hne => absurd (by rw [hl, hhead, hal]) hne, fun _ => hcr⟩
        rw [hcr, hhead, hl, hal]
  refine ⟨main, fun coords ring h => ?_⟩
  have : ∃ pts, buildPoints coords.iterElems = Except.ok pts ∧ ring = ⟨closeRing pts⟩ := by
    cases hb : buildPoints coords.iterElems with
    | error e => rw [buildRing, hb] at h; cases h
    | ok pts =>
      rw [buildRing, hb] at h
      have h' : Except.ok (⟨closeRing pts⟩ : Ring) = Except.ok ring := h
      exact ⟨pts, rfl, (Except.ok.inj h').symm⟩
  obtain ⟨pts, _, rfl⟩ := this
  exact (main pts).1

theorem ingested_ring_closed_witness :
    (([⟨0, 0⟩, ⟨10, 0⟩] : List Point).getLast? ≠ ([⟨0, 0⟩, ⟨10, 0⟩] : List Point).head? ∧
      closeRing [⟨0, 0⟩, ⟨10, 0⟩] = [⟨0, 0⟩, ⟨10, 0⟩] ++ [⟨0, 0⟩]) ∧
    (([⟨0, 0⟩, ⟨1, 1⟩, ⟨0, 0⟩] : List Point).getLast? = ([⟨0, 0⟩, ⟨1, 1⟩, ⟨0, 0⟩] : List Point).head? ∧
      closeRing [⟨0, 0⟩, ⟨1, 1⟩, ⟨0, 0⟩] = [⟨0, 0⟩, ⟨1, 1⟩, ⟨0, 0⟩]) := by
  have h1 : (([⟨0, 0⟩, ⟨10, 0⟩] : List Point).getLast? ≠ ([⟨0, 0⟩, ⟨10, 0⟩] : List Point).head?) := by
    decide
  have h2 : (([⟨0, 0⟩, ⟨1, 1⟩, ⟨0, 0⟩] : List Point).getLast? = ([⟨0, 0⟩, ⟨1, 1⟩, ⟨0, 0⟩] : List Point).head?) := by
    decide
  exact ⟨⟨h1, (ingested_ring_closed.1 [⟨0, 0⟩, ⟨10, 0⟩]).2.1 h1⟩,
         ⟨h2, (ingested_ring_closed.1 [⟨0, 0⟩, ⟨1, 1⟩, ⟨0, 0⟩]).2.2 h2⟩⟩

theorem edgeCross_refl (p q : Point) : edgeCross p p q = false := by
  by_cases h : p.lat < q.lat
  · have h2 : ¬(q.lat ≤ p.lat) := not_le.mpr h
    simp [edgeCross, min_self, max_self, h, h2]
  · simp [edgeCross, min_self, max_self, h]

theorem edgeCross_swap (p1 p2 q : Point) : edgeCross p2 p1 q = edgeCross p1 p2 q := by
  unfold edgeCross
  rw [min_comm p2.lat p1.lat, max_comm p2.lat p1.lat, max_comm p2.lon p1.lon]
  by_cases hmin : min p1.lat p2.lat < q.lat
  case neg =>
    rw [decide_eq_false hmin]
    simp
  case pos =>
  rw [decide_eq_true hmin]
  by_cases hmax : q.lat ≤ max p1.lat p2.lat
  case neg =>
    rw [decide_eq_false hmax]
    simp
  case pos =>
  rw [decide_eq_true hmax]
  by_cases hlon : q.lon ≤ max p1.lon p2.lon
  case neg =>
    rw [decide_eq_false hlon]
    simp
  case pos =>
  rw [decide_eq_true hlon]
  have hne : p1.lat ≠ p2.lat := by
    intro hlat
    rw [hlat, min_self] at hmin
    rw [hlat, max_self] at hmax
    exact absurd hmax (not_le.mpr hmin)
  by_cases hv : p1.lon = p2.lon
  · rw [decide_eq_true hv, decide_eq_true (Eq.symm hv)]
    simp
  · have h1' : p2.lat - p1.lat ≠ 0 := sub_ne_zero.mpr (Ne.symm hne)
    have h2' : p1.lat - p2.lat ≠ 0 := sub_ne_zero.mpr hne
    have hx : (q.lat - p2.lat) * (p1.lon - p2.lon) / (p1.lat - p2.lat) + p2.lon
        = (q.lat - p1.lat) * (p2.lon - p1.lon) / (p2.lat - p1.lat) + p1.lon := by
      field_simp
      ring
    rw [hx, decide_eq_false hv, decide_eq_false (fun h => hv (Eq.symm h))]

/-- C2: a degenerate ring with fewer than 3 points (0, 1, or 2) contains no
point — both embedded `pointInRing` implementations return false for every
query point.  The main.cpp version guards this explicitly; the suburb.cpp
crossing count has no guard but a one-point ring contributes no crossing and
a two-point ring contributes its two coincident edges in pairs, leaving the
count even. -/
theorem pointInRing_short_ring_false (ring : Ring) (q : Point)
    (h : ring.points.length < 3) :
    pointInRing ring q = false ∧ mainapp.pointInRing ring q = false := by
  constructor
  · obtain ⟨pts⟩ := ring
    simp only at h
    match pts, h with
    | [], _ => rfl
    | [a], _ =>
      have hr1 : List.range 1 = [0] := rfl
      simp only [pointInRing, List.length_cons, List.length_nil, Nat.zero_add, hr1,
        List.countP_cons, List.countP_nil]
      norm_num [List.getD_cons_zero, edgeCross_refl]
    | [a, b], _ =>
      have hr2 : List.range 2 = [0, 1] := rfl
      simp only [pointInRing, hr2, List.countP_cons, List.countP_nil, List.length_cons,
        List.length_nil, List.getD_cons_zero, List.getD_cons_succ]
      norm_num
      simp only [edgeCross_swap b a q]
      cases hc : edgeCross b a q <;> decide
  · simp [mainapp.pointInRing, h]

theorem pointInRing_short_ring_false_witness :
    ((⟨[⟨0, 0⟩, ⟨1, 1⟩]⟩ : Ring).points.length < 3) ∧
    pointInRing ⟨[⟨0, 0⟩, ⟨1, 1⟩]⟩ ⟨0, 0⟩ = false ∧
    mainapp.pointInRing ⟨[⟨0, 0⟩, ⟨1, 1⟩]⟩ ⟨0, 0⟩ = false := by
  refine ⟨by decide, ?_, ?_⟩
  · exact (pointInRing_short_ring_false ⟨[⟨0, 0⟩, ⟨1, 1⟩]⟩ ⟨0, 0⟩ (by decide)).1
  · exact (pointInRing_short_ring_false ⟨[⟨0, 0⟩, ⟨1, 1⟩]⟩ ⟨0, 0⟩ (by decide)).2

theorem getD_mem_of_lt {α : Type} (l : List α) (i : ℕ) (h : i < l.length) (d : α) :
    l.getD i d ∈ l := by
  rw [List.getD_eq_getElem?_getD, List.getElem?_eq_getElem h]
  simp only [Option.getD_some]
  exact List.getElem_mem h

theorem buildRings_length (cs : List Json) (rs : List Ring)
    (h : buildRings cs = Except.ok rs) : rs.length = cs.length := by
  induction cs generalizing rs with
  | nil =>
    have h' : Except.ok ([] : List Ring) = Except.ok rs := h
    rw [← Except.ok.inj h']
    rfl
  | cons c rest ih =>
    rw [buildRings] at h
    cases hr : buildRing c with
    | error e => rw [hr] at h; cases h
    | ok r =>
      rw [hr] at h
      cases hrs : buildRings rest with
      | error e =>
        rw [hrs] at h
        have h' : (Except.error e : Except String (List Ring)) = Except.ok rs := h
        cases h'
      | ok rs' =>
        rw [hrs] at h
        have h' : Except.ok (r :: rs') = Except.ok rs := h
        rw [← Except.ok.inj h']
        simp [ih rs' hrs]

/-- C10: the per-polygon bounding-box computation of ingestion reads
`poly.rings.front()` unconditionally, so an area feature whose ring-group
coordinate array is empty reaches the out-of-bounds branch (surfaced as the
error case of the total embedding); with at least one built ring the access is
in bounds and `addPolygon` succeeds. -/
theorem addPolygon_front_out_of_bounds :
    (∀ coords : Json, coords.iterElems = [] →
      addPolygonE coords =
        Except.error ("poly.rings.front() on an empty ring vector: out-of-bounds access")) ∧
    addPolygonE (Json.arr []) =
      Except.error ("poly.rings.front() on an empty ring vector: out-of-bounds access") ∧
    (∀ coords : Json, ∀ rs : List Ring,
      buildRings coords.iterElems = Except.ok rs → rs ≠ [] →
      (addPolygonE coords).isOk = true) := by
  refine ⟨fun coords h => ?_, rfl, fun coords rs h hne => ?_⟩
  · unfold addPolygonE
    rw [h]
    rfl
  · unfold addPolygonE
    rw [h]
    cases rs with
    | nil => exact absurd rfl hne
    | cons r0 rest => rfl

theorem addPolygon_front_out_of_bounds_witness :
    ((Json.arr [] : Json).iterElems = [] ∧
      addPolygonE (Json.arr []) =
        Except.error ("poly.rings.front() on an empty ring vector: out-of-bounds access")) ∧
    (buildRings sqCoordsJson.iterElems = Except.ok [sqRing] ∧ [sqRing] ≠ [] ∧
      (addPolygonE sqCoordsJson).isOk = true) := by
  refine ⟨⟨rfl, addPolygon_front_out_of_bounds.1 (Json.arr []) rfl⟩, ⟨rfl, by decide, ?_⟩⟩
  exact addPolygon_front_out_of_bounds.2.2 sqCoordsJson [sqRing] rfl (by decide)

end suburb

namespace mainapp

/-- C5: the aggregation loop implements first-match assignment: processing one
observation point rewrites the count table by incrementing exactly the entry
named by the first suburb (in ingestion order) whose `pointInSuburb` test
accepts the point, and leaves the table unchanged when no suburb contains the
point; in particular, with overlapping suburbs Alpha (built first) and Beta
(built second) both containing a point, Alpha's count is incremented and
Beta's is not. -/
theorem assignPoint_first_match :
    (∀ (suburbs : List suburb.Suburb) (counts : String → ℕ) (q : suburb.Point),
      assignPoint suburbs counts q =
        match suburbs.find? (fun s => pointInSuburb s q) with
        | some s => fun name => if name = s.name then counts name + 1 else counts name
        | none => counts) ∧
    (pointInSuburb suburbA obsX = true ∧ pointInSuburb suburbB obsX = true ∧
      assignPoint [suburbA, suburbB] (fun _ => 0) obsX ("Alpha") = 1 ∧
      assignPoint [suburbA, suburbB] (fun _ => 0) obsX ("Beta") = 0) ∧
    (∀ name, assignPoint [suburbA, suburbB] (fun _ => 0) obsY name = 0) := by
  have main : ∀ (suburbs : List suburb.Suburb) (counts : String → ℕ) (q : suburb.Point),
      assignPoint suburbs counts q =
        match suburbs.find? (fun s => pointInSuburb s q) with
        | some s => fun name => if name = s.name then counts name + 1 else counts name
        | none => counts := by
    intro suburbs counts q
    induction suburbs with
    | nil => rfl
    | cons s rest ih =>
      cases hs : pointInSuburb s q with
      | true =>
        rw [List.find?_cons_of_pos _ (by simpa using hs)]
        simp only [assignPoint, hs, if_true]
      | false =>
        rw [List.find?_cons_of_neg _ (by simpa using hs)]
        simpa only [assignPoint, hs, if_false] using ih
  refine ⟨main, ⟨by with_unfolding_all rfl, by with_unfolding_all rfl,
    by with_unfolding_all rfl, by with_unfolding_all rfl⟩, fun name => ?_⟩
  rw [main]
  have hnone : ([suburbA, suburbB].find? (fun s => pointInSuburb s obsY)) = none := by
    with_unfolding_all rfl
  rw [hnone]

end mainapp

namespace suburb

/-- C6 counterexample: on the property bag whose single property has the empty
string as key and the string Bar as value, no priority key matches, the first
string-valued property's value is Bar, yet ingestion names the region UNKNOWN —
the code conflates an empty-string property key with detection failure, so the
claimed first-string-property fallback does not hold for this bag. -/
theorem regionName_empty_key_unknown :
    ([("", Json.str ("Bar"))].find? (fun kv => kv.2.isStr)
        = some ("", Json.str ("Bar"))) ∧
    (regionNameE (Json.obj [("", Json.str ("Bar"))])).toOption = some ("UNKNOWN") ∧
    (regionNameE (Json.obj [("", Json.str ("Bar"))])).toOption ≠ some ("Bar") := by
  refine ⟨by with_unfolding_all rfl, by with_unfolding_all rfl, ?_⟩
  with_unfolding_all decide

theorem contains_get_isStr_eq (fs : List (String × Json)) (k : String) :
    ((Json.obj fs).contains k && ((Json.obj fs).get k).isStr)
      = (fs.find? (fun kv => kv.1 == k)).any (fun kv => kv.2.isStr) := by
  simp only [Json.contains, Json.get]
  cases hf : fs.find? (fun kv => kv.1 == k) with
  | none =>
    have hany : fs.any (fun kv => kv.1 == k) = false := by
      rw [List.any_eq_false]
      intro x hx
      simpa using List.find?_eq_none.mp hf x hx
    simp [hany, hf]
  | some kv =>
    have hp := List.find?_some hf
    have hm := List.mem_of_find?_eq_some hf
    have hany : fs.any (fun kv => kv.1 == k) = true :=
      List.any_eq_true.mpr ⟨kv, hm, hp⟩
    simp [hany, hf]

theorem find?_key_of_nodup (fs : List (String × Json)) (hnd : (fs.map Prod.fst).Nodup)
    (kv : String × Json) (hm : kv ∈ fs) :
    fs.find? (fun kv2 => kv2.1 == kv.1) = some kv := by
  induction fs with
  | nil => cases hm
  | cons a rest ih =>
    rcases List.mem_cons.mp hm with rfl | hmem
    · rw [List.find?_cons_of_pos _ (by simp)]
    · have hne : ¬(a.1 == kv.1) = true := by
        simp only [beq_iff_eq]
        intro heq
        have : kv.1 ∈ rest.map Prod.fst := List.mem_map.mpr ⟨kv, hmem, rfl⟩
        rw [← heq] at this
        exact (List.nodup_cons.mp (by simpa using hnd)).1 this
      have hne' : (a.1 == kv.1) = false := by simpa using hne
      rw [List.find?_cons, hne']
      exact ih (List.nodup_cons.mp (by simpa using hnd)).2 hmem

theorem valueStrE_obj_found (fs : List (String × Json)) (k d sv : String)
    (hcont : (Json.obj fs).contains k = true) (hget : (Json.obj fs).get k = Json.str sv) :
    Json.valueStrE (Json.obj fs) k d = Except.ok sv := by
  show (if (Json.obj fs).contains k then
      (match (Json.obj fs).get k with
        | Json.str s => Except.ok s
        | _ => Except.error ("type_error.302: type must be string"))
    else Except.ok d) = Except.ok sv
  rw [hcont]
  simp [hget]

/-- C6 (amended): ingestion's region name is the string value of the first
priority key (NAME, Name, name, LOCALITY_NAME, LOCALITY, LOC_NAME, vic_loca_2,
vic_loca_1, vic_loca_, SUBURB_NAME, SuburbName, suburb) present with a string
value; if no priority key matches, the string value of the first string-valued
property in iteration order — except that when that property's key is the
empty string the name is the literal UNKNOWN — and the literal UNKNOWN when no
string-valued property exists.  Stated for bags with unique keys, as the
`std::map`-backed parser guarantees, and including the claim's three concrete
examples. -/
theorem regionName_eq_specRegionName :
    (∀ fs : List (String × Json), (fs.map Prod.fst).Nodup →
      regionNameE (Json.obj fs) = Except.ok (specRegionName fs)) ∧
    regionNameE (Json.obj [("NAME", Json.str ("Central")), ("foo", Json.str ("Bar"))])
      = Except.ok ("Central") ∧
    regionNameE (Json.obj [("foo", Json.str ("Bar"))]) = Except.ok ("Bar") ∧
    regionNameE (Json.obj [("count", Json.num 5)]) = Except.ok ("UNKNOWN") := by
  refine ⟨?_, by with_unfolding_all rfl, by with_unfolding_all rfl, by with_unfolding_all rfl⟩
  intro fs hnd
  have hpred : (fun k => (Json.obj fs).contains k && ((Json.obj fs).get k).isStr)
      = (fun k => (fs.find? (fun kv => kv.1 == k)).any (fun kv => kv.2.isStr)) :=
    funext (contains_get_isStr_eq fs)
  rw [regionNameE, detectNameFieldE, hpred]
  cases hc : candidates.find?
      (fun k => (fs.find? (fun kv => kv.1 == k)).any (fun kv => kv.2.isStr)) with
  | some k =>
    have hkc : k ∈ candidates := List.mem_of_find?_eq_some hc
    have hkne : ¬(k = "") := by
      revert hkc
      have hall : ∀ k2 ∈ candidates, ¬(k2 = "") := by decide
      exact fun hkc => hall k hkc
    have hp : ((fs.find? (fun kv => kv.1 == k)).any (fun kv => kv.2.isStr)) = true := by
      have h0 := List.find?_some hc
      exact h0
    cases hkv : fs.find? (fun kv => kv.1 == k) with
    | none => rw [hkv] at hp; cases hp
    | some kv =>
      rw [hkv, Option.any_some] at hp
      cases hv : kv.2 with
      | str sv =>
        have hget : (Json.obj fs).get k = Json.str sv := by
          simp [Json.get, hkv, hv]
        have hbeq : (kv.1 == k) = true := by
          have h0 := List.find?_some hkv
          exact h0
        have hcont : (Json.obj fs).contains k = true := by
          simp only [Json.contains]
          exact List.any_eq_true.mpr ⟨kv, List.mem_of_find?_eq_some hkv, hbeq⟩
        have hspec : specRegionName fs = sv := by
          simp only [specRegionName, hc, hkv, hv]
        rw [hspec]
        show (if k = "" then Except.ok ("UNKNOWN")
          else Json.valueStrE (Json.obj fs) k ("UNKNOWN")) = Except.ok sv
        rw [if_neg hkne]
        exact valueStrE_obj_found fs k ("UNKNOWN") sv hcont hget
      | null => rw [hv] at hp; cases hp
      | bool b => rw [hv] at hp; cases hp
      | num q => rw [hv] at hp; cases hp
      | arr xs => rw [hv] at hp; cases hp
      | obj gs => rw [hv] at hp; cases hp
  | none =>
    cases hkv : fs.find? (fun kv => kv.2.isStr) with
    | none =>
      have hspec : specRegionName fs = "UNKNOWN" := by
        simp only [specRegionName, hc, hkv]
      rw [hspec]
      show ((fallbackNameField (Json.obj fs)) >>= fun nameField =>
        if nameField = "" then Except.ok ("UNKNOWN")
        else Json.valueStrE (Json.obj fs) nameField ("UNKNOWN")) = Except.ok ("UNKNOWN")
      rw [fallbackNameField, hkv]
      rfl
    | some kv =>
      by_cases hek : kv.1 = ""
      · have hspec : specRegionName fs = "UNKNOWN" := by
          simp only [specRegionName, hc, hkv, if_pos hek]
        rw [hspec]
        show ((fallbackNameField (Json.obj fs)) >>= fun nameField =>
          if nameField = "" then Except.ok ("UNKNOWN")
          else Json.valueStrE (Json.obj fs) nameField ("UNKNOWN")) = Except.ok ("UNKNOWN")
        rw [fallbackNameField, hkv]
        show (if kv.1 = "" then Except.ok ("UNKNOWN")
          else Json.valueStrE (Json.obj fs) kv.1 ("UNKNOWN")) = Except.ok ("UNKNOWN")
        rw [if_pos hek]
      · have hm := List.mem_of_find?_eq_some hkv
        have hfk : fs.find? (fun kv2 => kv2.1 == kv.1) = some kv := find?_key_of_nodup fs hnd kv hm
        have hps : (kv.2.isStr) = true := by
          have h0 := List.find?_some hkv
          exact h0
        cases hv : kv.2 with
        | str sv =>
          have hget : (Json.obj fs).get kv.1 = Json.str sv := by
            simp [Json.get, hfk, hv]
          have hcont : (Json.obj fs).contains kv.1 = true := by
            simp only [Json.contains]
            exact List.any_eq_true.mpr ⟨kv, hm, by simp⟩
          have hspec : specRegionName fs = sv := by
            simp only [specRegionName, hc, hkv, if_neg hek, hv]
          rw [hspec]
          show ((fallbackNameField (Json.obj fs)) >>= fun nameField =>
            if nameField = "" then Except.ok ("UNKNOWN")
            else Json.valueStrE (Json.obj fs) nameField ("UNKNOWN")) = Except.ok sv
          rw [fallbackNameField, hkv]
          show (if kv.1 = "" then Except.ok ("UNKNOWN")
            else Json.valueStrE (Json.obj fs) kv.1 ("UNKNOWN")) = Except.ok sv
          rw [if_neg hek]
          exact valueStrE_obj_found fs kv.1 ("UNKNOWN") sv hcont hget
        | null => rw [hv] at hps; cases hps
        | bool b => rw [hv] at hps; cases hps
        | num q => rw [hv] at hps; cases hps
        | arr xs => rw [hv] at hps; cases hps
        | obj gs => rw [hv] at hps; cases hps

theorem regionName_eq_specRegionName_witness :
    (([("NAME", Json.str ("Central")), ("foo", Json.str ("Bar"))].map
        (Prod.fst (α := String) (β := Json))).Nodup) ∧
    regionNameE (Json.obj [("NAME", Json.str ("Central")), ("foo", Json.str ("Bar"))])
      = Except.ok (specRegionName [("NAME", Json.str ("Central")), ("foo", Json.str ("Bar"))]) := by
  constructor
  · decide
  · exact regionName_eq_specRegionName.1 _ (by decide)

theorem addPolygonE_ok_struct (coords : Json) (poly : Polygon)
    (h : addPolygonE coords = Except.ok poly) :
    ∃ r0 rest, buildRings coords.iterElems = Except.ok (r0 :: rest) ∧
      poly = ⟨r0 :: rest,
        (rest.foldl (fun b r => bbUnion b (ringBounds r)) (ringBounds r0)).minLon,
        (rest.foldl (fun b r => bbUnion b (ringBounds r)) (ringBounds r0)).minLat,
        (rest.foldl (fun b r => bbUnion b (ringBounds r)) (ringBounds r0)).maxLon,
        (rest.foldl (fun b r => bbUnion b (ringBounds r)) (ringBounds r0)).maxLat⟩ := by
  unfold addPolygonE at h
  cases hb : buildRings coords.iterElems with
  | error e => rw [hb] at h; cases h
  | ok rings =>
    rw [hb] at h
    cases rings with
    | nil =>
      have h' : (Except.error ("poly.rings.front() on an empty ring vector: out-of-bounds access")
          : Except String Polygon) = Except.ok poly := h
      cases h'
    | cons r0 rest =>
      refine ⟨r0, rest, rfl, ?_⟩
      have h' : Except.ok (Polygon.mk (r0 :: rest)
          (rest.foldl (fun b r => bbUnion b (ringBounds r)) (ringBounds r0)).minLon
          (rest.foldl (fun b r => bbUnion b (ringBounds r)) (ringBounds r0)).minLat
          (rest.foldl (fun b r => bbUnion b (ringBounds r)) (ringBounds r0)).maxLon
          (rest.foldl (fun b r => bbUnion b (ringBounds r)) (ringBounds r0)).maxLat)
          = Except.ok poly := h
      exact (Except.ok.inj h').symm

theorem bbFold_mono (rs : List Ring) (b : Bounds) :
    (rs.foldl (fun b r => bbUnion b (ringBounds r)) b).minLon ≤ b.minLon ∧
    (rs.foldl (fun b r => bbUnion b (ringBounds r)) b).minLat ≤ b.minLat ∧
    b.maxLon ≤ (rs.foldl (fun b r => bbUnion b (ringBounds r)) b).maxLon ∧
    b.maxLat ≤ (rs.foldl (fun b r => bbUnion b (ringBounds r)) b).maxLat := by
  induction rs generalizing b with
  | nil => simp
  | cons r rest ih =>
    simp only [List.foldl_cons]
    obtain ⟨h1, h2, h3, h4⟩ := ih (bbUnion b (ringBounds r))
    exact ⟨le_trans h1 (min_le_left _ _), le_trans h2 (min_le_left _ _),
      le_trans (le_max_left _ _) h3, le_trans (le_max_left _ _) h4⟩

theorem bbFold_mem (rs : List Ring) (b : Bounds) (r : Ring) (hr : r ∈ rs) :
    (rs.foldl (fun b r => bbUnion b (ringBounds r)) b).minLon ≤ (ringBounds r).minLon ∧
    (rs.foldl (fun b r => bbUnion b (ringBounds r)) b).minLat ≤ (ringBounds r).minLat ∧
    (ringBounds r).maxLon ≤ (rs.foldl (fun b r => bbUnion b (ringBounds r)) b).maxLon ∧
    (ringBounds r).maxLat ≤ (rs.foldl (fun b r => bbUnion b (ringBounds r)) b).maxLat := by
  induction rs generalizing b with
  | nil => cases hr
  | cons r1 rest ih =>
    simp only [List.foldl_cons]
    rcases List.mem_cons.mp hr with rfl | hmem
    · obtain ⟨h1, h2, h3, h4⟩ := bbFold_mono rest (bbUnion b (ringBounds r))
      exact ⟨le_trans h1 (min_le_right _ _), le_trans h2 (min_le_right _ _),
        le_trans (le_max_right _ _) h3, le_trans (le_max_right _ _) h4⟩
    · exact ih (bbUnion b (ringBounds r1)) hmem

theorem addPolygonE_vertex_bounds (coords : Json) (poly : Polygon)
    (h : addPolygonE coords = Except.ok poly) (r : Ring) (hr : r ∈ poly.rings)
    (p : Point) (hp : p ∈ r.points) :
    poly.minLon ≤ p.lon ∧ poly.minLat ≤ p.lat ∧ p.lon ≤ poly.maxLon ∧ p.lat ≤ poly.maxLat := by
  obtain ⟨r0, rest, hb, hpoly⟩ := addPolygonE_ok_struct coords poly h
  subst hpoly
  simp only at hr ⊢
  obtain ⟨hq1, hq2, hq3, hq4⟩ := ringBounds_mem r p hp
  rcases List.mem_cons.mp hr with rfl | hmem
  · obtain ⟨h1, h2, h3, h4⟩ := bbFold_mono rest (ringBounds r)
    exact ⟨le_trans h1 hq1, le_trans h2 hq2, le_trans hq3 h3, le_trans hq4 h4⟩
  · obtain ⟨h1, h2, h3, h4⟩ := bbFold_mem rest (ringBounds r0) r hmem
    exact ⟨le_trans h1 hq1, le_trans h2 hq2, le_trans hq3 h3, le_trans hq4 h4⟩

theorem pointInRing_true_exists (ring : Ring) (q : Point) (h : pointInRing ring q = true) :
    ∃ p1 ∈ ring.points, ∃ p2 ∈ ring.points, edgeCross p1 p2 q = true := by
  simp only [pointInRing, beq_iff_eq] at h
  have hpos : 0 < (List.range ring.points.length).countP
      (fun i => edgeCross (ring.points.getD i ⟨0, 0⟩)
        (ring.points.getD ((i + 1) % ring.points.length) ⟨0, 0⟩) q) := by
    rcases Nat.eq_zero_or_pos ((List.range ring.points.length).countP
      (fun i => edgeCross (ring.points.getD i ⟨0, 0⟩)
        (ring.points.getD ((i + 1) % ring.points.length) ⟨0, 0⟩) q)) with hz | hpos
    · rw [hz] at h; cases h
    · exact hpos
  obtain ⟨i, hi, hpi⟩ := List.countP_pos.mp hpos
  have hilt : i < ring.points.length := List.mem_range.mp hi
  have hilt2 : (i + 1) % ring.points.length < ring.points.length :=
    Nat.mod_lt _ (by omega)
  exact ⟨_, getD_mem_of_lt _ i hilt _, _, getD_mem_of_lt _ _ hilt2 _, hpi⟩

theorem edgeCross_bounds {p1 p2 q : Point} (h : edgeCross p1 p2 q = true) :
    min p1.lat p2.lat < q.lat ∧ q.lat ≤ max p1.lat p2.lat ∧ q.lon ≤ max p1.lon p2.lon := by
  simp only [edgeCross, Bool.and_eq_true, decide_eq_true_eq] at h
  exact ⟨h.1.1.1, h.1.1.2, h.1.2⟩

theorem fastReject_false_iff (poly : Polygon) (q : Point) :
    fastReject poly q = false ↔
      (poly.minLon + e12 ≤ q.lon ∧ q.lon ≤ poly.maxLon + e12 ∧
       poly.minLat + e12 ≤ q.lat ∧ q.lat ≤ poly.maxLat + e12) := by
  simp only [fastReject, Bool.or_eq_false_iff, decide_eq_false_iff_not, not_lt]
  constructor
  · rintro ⟨⟨⟨h1, h2⟩, h3⟩, h4⟩
    exact ⟨h1, h2, h3, h4⟩
  · rintro ⟨h1, h2, h3, h4⟩
    exact ⟨⟨⟨h1, h2⟩, h3⟩, h4⟩

/-- C4: for every polygon whose cached bounding box was computed by ingestion
as the union of its rings' bounds, a point accepted by `pointInPolygon` lies
within that cached bounding box. -/
theorem pointInPolygon_within_cached_aabb (coords : Json) (poly : Polygon) (q : Point)
    (hok : addPolygonE coords = Except.ok poly)
    (h : pointInPolygon poly q = true) :
    poly.minLon ≤ q.lon ∧ q.lon ≤ poly.maxLon ∧ poly.minLat ≤ q.lat ∧ q.lat ≤ poly.maxLat := by
  have hfr : fastReject poly q = false := by
    cases hf : fastReject poly q with
    | false => rfl
    | true =>
      rw [pointInPolygon, hf] at h
      simp at h
  obtain ⟨r0, rest, hb, hpoly⟩ := addPolygonE_ok_struct coords poly hok
  have hrings : poly.rings = r0 :: rest := by rw [hpoly]
  rw [pointInPolygon, hfr] at h
  simp only [Bool.false_eq_true, if_false, hrings] at h
  have houter : pointInRing r0 q = true := by
    cases ho : pointInRing r0 q with
    | true => rfl
    | false => rw [ho] at h; simp at h
  obtain ⟨p1, hp1, p2, hp2, hec⟩ := pointInRing_true_exists r0 q houter
  obtain ⟨hstr1, hstr2, hlon⟩ := edgeCross_bounds hec
  have hmem0 : r0 ∈ poly.rings := by rw [hrings]; exact List.mem_cons_self _ _
  have hb1 := addPolygonE_vertex_bounds coords poly hok r0 hmem0 p1 hp1
  have hb2 := addPolygonE_vertex_bounds coords poly hok r0 hmem0 p2 hp2
  have hfr' := (fastReject_false_iff poly q).mp hfr
  have he12 : (0 : ℚ) < e12 := by norm_num [e12]
  refine ⟨by linarith [hfr'.1], ?_, by linarith [hfr'.2.2.1], ?_⟩
  · exact le_trans hlon (max_le hb1.2.2.1 hb2.2.2.1)
  · exact le_trans hstr2 (max_le hb1.2.2.2 hb2.2.2.2)

set_option maxRecDepth 10000 in
theorem pointInPolygon_within_cached_aabb_witness :
    (addPolygonE sqCoordsJson = Except.ok sqPoly ∧ pointInPolygon sqPoly ⟨5, 5⟩ = true) ∧
    (sqPoly.minLon ≤ (5 : ℚ) ∧ (5 : ℚ) ≤ sqPoly.maxLon ∧
     sqPoly.minLat ≤ (5 : ℚ) ∧ (5 : ℚ) ≤ sqPoly.maxLat) := by
  have h1 : addPolygonE sqCoordsJson = Except.ok sqPoly := by with_unfolding_all rfl
  have h2 : pointInPolygon sqPoly ⟨5, 5⟩ = true := by with_unfolding_all rfl
  exact ⟨⟨h1, h2⟩, pointInPolygon_within_cached_aabb sqCoordsJson sqPoly ⟨5, 5⟩ h1 h2⟩

theorem countP_range_flip_parity (f : ℕ → Bool) (m : ℕ) :
    ((List.range m).countP (fun i => f i != f (i + 1))) % 2
      = (if f 0 != f m then 1 else 0) % 2 := by
  induction m with
  | zero => simp
  | succ m ih =>
    rw [List.range_succ, List.countP_append]
    have hsing : List.countP (fun i => f i != f (i + 1)) [m]
        = if f m != f (m + 1) then 1 else 0 := by
      simp [List.countP_cons]
    rw [hsing]
    cases h0 : f 0 <;> cases hm : f m <;> cases hm1 : f (m + 1) <;>
      simp only [h0, hm, hm1] at ih ⊢ <;> simp at ih ⊢ <;> omega

theorem countP_range_cyclic_even (f : ℕ → Bool) (n : ℕ) :
    ((List.range n).countP (fun i => f i != f ((i + 1) % n))) % 2 = 0 := by
  cases n with
  | zero => simp
  | succ m =>
    rw [List.range_succ, List.countP_append]
    have hcong : (List.range m).countP (fun i => f i != f ((i + 1) % (m + 1)))
        = (List.range m).countP (fun i => f i != f (i + 1)) := by
      apply List.countP_congr
      intro i hi
      have hlt : i < m := List.mem_range.mp hi
      have hmod : (i + 1) % (m + 1) = i + 1 := Nat.mod_eq_of_lt (by omega)
      rw [hmod]
    rw [hcong]
    have hsing : List.countP (fun i => f i != f ((i + 1) % (m + 1))) [m]
        = if f m != f 0 then 1 else 0 := by
      have hmod : (m + 1) % (m + 1) = 0 := Nat.mod_self _
      simp [List.countP_cons, hmod]
    rw [hsing]
    have hpath := countP_range_flip_parity f m
    cases h0 : f 0 <;> cases hm : f m <;>
      simp only [h0, hm] at hpath ⊢ <;> simp at hpath ⊢ <;> omega

theorem not_any_eq_all_not {α : Type} (l : List α) (p : α → Bool) :
    (!(l.any p)) = l.all (fun a => !(p a)) := by
  induction l with
  | nil => rfl
  | cons a t ih => simp [List.any_cons, List.all_cons, ← ih]

theorem edgeCross_left_eq_straddle {p1 p2 q : Point}
    (h1 : q.lon < p1.lon) (h2 : q.lon < p2.lon) :
    edgeCross p1 p2 q = (decide (q.lat ≤ p1.lat) != decide (q.lat ≤ p2.lat)) := by
  by_cases hs : min p1.lat p2.lat < q.lat ∧ q.lat ≤ max p1.lat p2.lat
  · obtain ⟨hs1, hs2⟩ := hs
    have hlon : q.lon ≤ max p1.lon p2.lon := le_of_lt (lt_max_of_lt_left h1)
    have hD : p1.lat ≠ p2.lat := by
      intro he
      rw [he, min_self] at hs1
      rw [he, max_self] at hs2
      exact absurd hs2 (not_le.mpr hs1)
    have hlhs : edgeCross p1 p2 q = true := by
      rw [edgeCross, decide_eq_true hs1, decide_eq_true hs2, decide_eq_true hlon]
      by_cases hv : p1.lon = p2.lon
      · rw [decide_eq_true hv]
        rfl
      · have hxge : min p1.lon p2.lon
            ≤ (q.lat - p1.lat) * (p2.lon - p1.lon) / (p2.lat - p1.lat) + p1.lon := by
          have hxe : (q.lat - p1.lat) * (p2.lon - p1.lon) / (p2.lat - p1.lat)
              = (q.lat - p1.lat) / (p2.lat - p1.lat) * (p2.lon - p1.lon) :=
            mul_div_right_comm _ _ _
          have ht01 : 0 ≤ (q.lat - p1.lat) / (p2.lat - p1.lat) ∧
              (q.lat - p1.lat) / (p2.lat - p1.lat) ≤ 1 := by
            rcases lt_or_gt_of_ne hD with hlt | hgt
            · have hq1 : p1.lat < q.lat := (min_eq_left (le_of_lt hlt)) ▸ hs1
              have hq2 : q.lat ≤ p2.lat := (max_eq_right (le_of_lt hlt)) ▸ hs2
              exact ⟨div_nonneg (by linarith) (by linarith),
                (div_le_one (by linarith)).mpr (by linarith)⟩
            · have hq1 : p2.lat < q.lat := (min_eq_right (le_of_lt hgt)) ▸ hs1
              have hq2 : q.lat ≤ p1.lat := (max_eq_left (le_of_lt hgt)) ▸ hs2
              constructor
              · rw [div_nonneg_iff]
                right
                exact ⟨by linarith, by linarith⟩
              · rw [div_le_one_iff]
                right
                right
                exact ⟨by linarith, by linarith⟩
          obtain ⟨ht0, ht1⟩ := ht01
          rw [hxe]
          rcases le_total p1.lon p2.lon with hpl | hpl
          · have : 0 ≤ (q.lat - p1.lat) / (p2.lat - p1.lat) * (p2.lon - p1.lon) :=
              mul_nonneg ht0 (by linarith)
            calc min p1.lon p2.lon ≤ p1.lon := min_le_left _ _
              _ ≤ _ := by linarith
          · have : (p2.lon - p1.lon)
                ≤ (q.lat - p1.lat) / (p2.lat - p1.lat) * (p2.lon - p1.lon) := by
              nlinarith
            calc min p1.lon p2.lon ≤ p2.lon := min_le_right _ _
              _ ≤ _ := by linarith
        have hxcond : q.lon ≤ (q.lat - p1.lat) * (p2.lon - p1.lon) / (p2.lat - p1.lat) + p1.lon := by
          have hqmin : q.lon < min p1.lon p2.lon := lt_min h1 h2
          linarith
        rw [decide_eq_true hxcond]
        simp
    rw [hlhs]
    have hrhs : (decide (q.lat ≤ p1.lat) != decide (q.lat ≤ p2.lat)) = true := by
      rcases lt_or_gt_of_ne hD with hlt | hgt
      · have hq1 : p1.lat < q.lat := (min_eq_left (le_of_lt hlt)) ▸ hs1
        have hq2 : q.lat ≤ p2.lat := (max_eq_right (le_of_lt hlt)) ▸ hs2
        rw [decide_eq_false (not_le.mpr hq1), decide_eq_true hq2]
        rfl
      · have hq1 : p2.lat < q.lat := (min_eq_right (le_of_lt hgt)) ▸ hs1
        have hq2 : q.lat ≤ p1.lat := (max_eq_left (le_of_lt hgt)) ▸ hs2
        rw [decide_eq_true hq2, decide_eq_false (not_le.mpr hq1)]
        rfl
    rw [hrhs]
  · have hlhs : edgeCross p1 p2 q = false := by
      rw [edgeCross]
      rcases not_and_or.mp hs with h | h
      · rw [decide_eq_false h]
        simp
      · rw [decide_eq_false h]
        simp
    rw [hlhs]
    rcases not_and_or.mp hs with h | h
    · have hle : q.lat ≤ min p1.lat p2.lat := not_lt.mp h
      rw [decide_eq_true (le_trans hle (min_le_left _ _)),
        decide_eq_true (le_trans hle (min_le_right _ _))]
      rfl
    · have hgt : max p1.lat p2.lat < q.lat := not_le.mp h
      rw [decide_eq_false (not_le.mpr (lt_of_le_of_lt (le_max_left _ _) hgt)),
        decide_eq_false (not_le.mpr (lt_of_le_of_lt (le_max_right _ _) hgt))]
      rfl

theorem pointInRing_no_straddle_false (ring : Ring) (q : Point)
    (h : (∀ p ∈ ring.points, q.lat < p.lat) ∨ (∀ p ∈ ring.points, p.lat < q.lat) ∨
         (∀ p ∈ ring.points, p.lon < q.lon)) :
    pointInRing ring q = false := by
  simp only [pointInRing]
  have hz : (List.range ring.points.length).countP
      (fun i => edgeCross (ring.points.getD i ⟨0, 0⟩)
        (ring.points.getD ((i + 1) % ring.points.length) ⟨0, 0⟩) q) = 0 := by
    rw [List.countP_eq_zero]
    intro i hi
    intro hpred
    have hilt : i < ring.points.length := List.mem_range.mp hi
    have hm1 := getD_mem_of_lt ring.points i hilt ⟨0, 0⟩
    have hm2 := getD_mem_of_lt ring.points ((i + 1) % ring.points.length)
      (Nat.mod_lt _ (by omega)) ⟨0, 0⟩
    obtain ⟨hstr1, hstr2, hlon⟩ := edgeCross_bounds hpred
    rcases h with h | h | h
    · rcases min_lt_iff.mp hstr1 with hc | hc
      · exact absurd hc (not_lt.mpr (le_of_lt (h _ hm1)))
      · exact absurd hc (not_lt.mpr (le_of_lt (h _ hm2)))
    · have : max (ring.points.getD i ⟨0, 0⟩).lat
          (ring.points.getD ((i + 1) % ring.points.length) ⟨0, 0⟩).lat < q.lat :=
        max_lt (h _ hm1) (h _ hm2)
      exact absurd hstr2 (not_le.mpr this)
    · have : max (ring.points.getD i ⟨0, 0⟩).lon
          (ring.points.getD ((i + 1) % ring.points.length) ⟨0, 0⟩).lon < q.lon :=
        max_lt (h _ hm1) (h _ hm2)
      exact absurd hlon (not_le.mpr this)
  rw [hz]
  rfl

theorem pointInRing_left_of_all_false (ring : Ring) (q : Point)
    (hleft : ∀ p ∈ ring.points, q.lon < p.lon) :
    pointInRing ring q = false := by
  simp only [pointInRing]
  have hcong : (List.range ring.points.length).countP
      (fun i => edgeCross (ring.points.getD i ⟨0, 0⟩)
        (ring.points.getD ((i + 1) % ring.points.length) ⟨0, 0⟩) q)
    = (List.range ring.points.length).countP
      (fun i => (fun j => decide (q.lat ≤ (ring.points.getD j ⟨0, 0⟩).lat)) i
          != (fun j => decide (q.lat ≤ (ring.points.getD j ⟨0, 0⟩).lat))
              ((i + 1) % ring.points.length)) := by
    apply List.countP_congr
    intro i hi
    have hilt : i < ring.points.length := List.mem_range.mp hi
    have h1 := hleft _ (getD_mem_of_lt ring.points i hilt ⟨0, 0⟩)
    have h2 := hleft _ (getD_mem_of_lt ring.points ((i + 1) % ring.points.length)
      (Nat.mod_lt _ (by omega)) ⟨0, 0⟩)
    rw [edgeCross_left_eq_straddle h1 h2]
  rw [hcong]
  have heven := countP_range_cyclic_even
    (fun j => decide (q.lat ≤ (ring.points.getD j ⟨0, 0⟩).lat)) ring.points.length
  rw [heven]
  rfl

/-- C1 (amended): for every polygon built by ingestion (cached bounding box =
union of its rings' bounds) and every query point whose longitude is not in
the low-side margin strip [minLon, minLon + 1e-12) and whose latitude is not
in [minLat, minLat + 1e-12), `pointInPolygon` returns exactly the boolean of
the pure ring-based outer-minus-holes test; inside those margin strips the
`+1e-12`-shifted fast reject can fire for points inside the cached box and
disagree with the ring-based test (see the counterexample theorem). -/
theorem pointInPolygon_eq_ringTest_outside_margin (coords : Json) (poly : Polygon) (q : Point)
    (hok : addPolygonE coords = Except.ok poly)
    (hlon : q.lon < poly.minLon ∨ poly.minLon + e12 ≤ q.lon)
    (hlat : q.lat < poly.minLat ∨ poly.minLat + e12 ≤ q.lat) :
    pointInPolygon poly q = ringOuterMinusHoles poly.rings q := by
  have he12 : (0 : ℚ) < e12 := by norm_num [e12]
  cases hfr : fastReject poly q with
  | false =>
    rw [pointInPolygon, hfr]
    simp only [Bool.false_eq_true, if_false]
    cases hr : poly.rings with
    | nil => rfl
    | cons outer holes =>
      show (if !(pointInRing outer q) then false
        else !(holes.any (fun r => pointInRing r q)))
        = (pointInRing outer q && holes.all (fun r => !(pointInRing r q)))
      cases ho : pointInRing outer q with
      | false => rfl
      | true =>
        simp only [Bool.not_true, if_false, Bool.true_and]
        exact not_any_eq_all_not holes _
  | true =>
    rw [pointInPolygon, hfr]
    simp only [if_true]
    obtain ⟨r0, rest, hb, hpoly⟩ := addPolygonE_ok_struct coords poly hok
    have hrings : poly.rings = r0 :: rest := by rw [hpoly]
    have hmem0 : r0 ∈ poly.rings := by rw [hrings]; exact List.mem_cons_self _ _
    have hvx : ∀ p ∈ r0.points,
        poly.minLon ≤ p.lon ∧ poly.minLat ≤ p.lat ∧ p.lon ≤ poly.maxLon ∧ p.lat ≤ poly.maxLat :=
      fun p hp => addPolygonE_vertex_bounds coords poly hok r0 hmem0 p hp
    have hd : q.lon < poly.minLon + e12 ∨ q.lon > poly.maxLon + e12 ∨
        q.lat < poly.minLat + e12 ∨ q.lat > poly.maxLat + e12 := by
      have h0 : fastReject poly q = true := hfr
      simp only [fastReject, Bool.or_eq_true, decide_eq_true_eq] at h0
      tauto
    have houter : pointInRing r0 q = false := by
      rcases hd with h | h | h | h
      · rcases hlon with hml | hml
        · exact pointInRing_left_of_all_false r0 q
            (fun p hp => lt_of_lt_of_le hml (hvx p hp).1)
        · exact absurd h (not_lt.mpr hml)
      · refine pointInRing_no_straddle_false r0 q (Or.inr (Or.inr ?_))
        intro p hp
        have := (hvx p hp).2.2.1
        linarith
      · rcases hlat with hml | hml
        · refine pointInRing_no_straddle_false r0 q (Or.inl ?_)
          intro p hp
          exact lt_of_lt_of_le hml (hvx p hp).2.1
        · exact absurd h (not_lt.mpr hml)
      · refine pointInRing_no_straddle_false r0 q (Or.inr (Or.inl ?_))
        intro p hp
        have := (hvx p hp).2.2.2
        linarith
    rw [hrings]
    show false = (pointInRing r0 q && rest.all (fun r => !(pointInRing r q)))
    rw [houter]
    rfl

set_option maxRecDepth 10000 in
theorem pointInPolygon_eq_ringTest_outside_margin_witness :
    (addPolygonE sqCoordsJson = Except.ok sqPoly ∧
      ((⟨5, 5⟩ : Point).lon < sqPoly.minLon ∨ sqPoly.minLon + e12 ≤ (⟨5, 5⟩ : Point).lon) ∧
      ((⟨5, 5⟩ : Point).lat < sqPoly.minLat ∨ sqPoly.minLat + e12 ≤ (⟨5, 5⟩ : Point).lat)) ∧
    pointInPolygon sqPoly ⟨5, 5⟩ = ringOuterMinusHoles sqPoly.rings ⟨5, 5⟩ := by
  have h1 : addPolygonE sqCoordsJson = Except.ok sqPoly := by with_unfolding_all rfl
  have h2 : (⟨5, 5⟩ : Point).lon < sqPoly.minLon ∨ sqPoly.minLon + e12 ≤ (⟨5, 5⟩ : Point).lon :=
    Or.inr (by norm_num [sqPoly, e12])
  have h3 : (⟨5, 5⟩ : Point).lat < sqPoly.minLat ∨ sqPoly.minLat + e12 ≤ (⟨5, 5⟩ : Point).lat :=
    Or.inr (by norm_num [sqPoly, e12])
  exact ⟨⟨h1, h2, h3⟩,
    pointInPolygon_eq_ringTest_outside_margin sqCoordsJson sqPoly ⟨5, 5⟩ h1 h2 h3⟩

set_option maxRecDepth 10000 in
/-- C1 counterexample: for the ingested plain square (cached box [0,10]×[0,10])
and the margin point (5·10⁻¹³, 5), which lies inside the cached bounding box,
the shifted fast reject fires, `pointInPolygon` returns false, and the pure
ring-based outer-minus-holes test returns true — so the fast-reject branch does
not fire only outside the cached box, and the two tests are not extensionally
equal. -/
theorem pointInPolygon_fastReject_disagrees :
    addPolygonE sqCoordsJson = Except.ok sqPoly ∧
    fastReject sqPoly marginPt = true ∧
    (sqPoly.minLon ≤ marginPt.lon ∧ marginPt.lon ≤ sqPoly.maxLon ∧
     sqPoly.minLat ≤ marginPt.lat ∧ marginPt.lat ≤ sqPoly.maxLat) ∧
    pointInPolygon sqPoly marginPt = false ∧
    ringOuterMinusHoles sqPoly.rings marginPt = true := by
  refine ⟨by with_unfolding_all rfl, by with_unfolding_all rfl, ⟨?_, ?_, ?_, ?_⟩,
    by with_unfolding_all rfl, by with_unfolding_all rfl⟩ <;>
    norm_num [sqPoly, marginPt]

set_option maxRecDepth 10000 in
/-- C3 (amended): for every polygon with at least one ring and every query
point that passes the `+1e-12`-shifted bounding-box fast reject,
`pointInPolygon` returns true iff the point is inside the outer ring
`rings[0]` and not inside any hole ring `rings[1..]`; for points the fast
reject fires on, `pointInPolygon` is false even when the outer-minus-holes
condition holds (see the counterexample theorem).  The spec's square-with-hole
example behaves as claimed: (5,5) is rejected by the hole, (1,1) is accepted. -/
theorem pointInPolygon_iff_outer_not_hole (poly : Polygon) (q : Point)
    (outer : Ring) (holes : List Ring)
    (hr : poly.rings = outer :: holes)
    (hfr : fastReject poly q = false) :
    (pointInPolygon poly q = true ↔
      (pointInRing outer q = true ∧ ∀ hring ∈ holes, pointInRing hring q = false)) ∧
    (addPolygonE holeCoordsJson = Except.ok holePoly ∧
      pointInPolygon holePoly ⟨5, 5⟩ = false ∧ pointInPolygon holePoly ⟨1, 1⟩ = true) := by
  constructor
  · rw [pointInPolygon, hfr, hr]
    simp only [Bool.false_eq_true, if_false]
    show ((if !(pointInRing outer q) then false
        else !(holes.any (fun r => pointInRing r q))) = true ↔ _)
    cases ho : pointInRing outer q with
    | false =>
      simp
    | true =>
      simp only [Bool.not_true, Bool.false_eq_true, if_false, not_any_eq_all_not,
        List.all_eq_true, Bool.not_eq_true', true_and]
  · exact ⟨by with_unfolding_all rfl, by with_unfolding_all rfl, by with_unfolding_all rfl⟩

set_option maxRecDepth 10000 in
theorem pointInPolygon_iff_outer_not_hole_witness :
    (holePoly.rings = sqRing :: [holeRing] ∧ fastReject holePoly ⟨1, 1⟩ = false) ∧
    (pointInPolygon holePoly ⟨1, 1⟩ = true ↔
      (pointInRing sqRing ⟨1, 1⟩ = true ∧ ∀ hring ∈ [holeRing], pointInRing hring ⟨1, 1⟩ = false)) := by
  have h1 : holePoly.rings = sqRing :: [holeRing] := rfl
  have h2 : fastReject holePoly ⟨1, 1⟩ = false := by with_unfolding_all rfl
  exact ⟨⟨h1, h2⟩, (pointInPolygon_iff_outer_not_hole holePoly ⟨1, 1⟩ sqRing [holeRing] h1 h2).1⟩

set_option maxRecDepth 10000 in
/-- C3 counterexample: the ingested square-with-hole polygon has at least one
ring, and at the margin point (5·10⁻¹³, 5) the point is inside the outer ring
and inside no hole ring, yet `pointInPolygon` returns false — the claimed
unconditional equivalence with the outer-minus-holes condition fails because
of the shifted bounding-box fast reject. -/
theorem pointInPolygon_outer_hole_iff_fails :
    addPolygonE holeCoordsJson = Except.ok holePoly ∧
    holePoly.rings.head? = some sqRing ∧
    pointInRing sqRing marginPt = true ∧
    holePoly.rings.tail.all (fun r => !(pointInRing r marginPt)) = true ∧
    pointInPolygon holePoly marginPt = false := by
  exact ⟨by with_unfolding_all rfl, rfl, by with_unfolding_all rfl,
    by with_unfolding_all rfl, by with_unfolding_all rfl⟩

theorem except_bind_ok {ε α β : Type} (a : α) (f : α → Except ε β) :
    (Except.ok a >>= f) = f a := rfl

theorem except_bind_err {ε α β : Type} (e : ε) (f : α → Except ε β) :
    ((Except.error e : Except ε α) >>= f) = Except.error e := rfl

theorem isOk_ok {ε α : Type} (a : α) : (Except.ok a : Except ε α).isOk = true := rfl

theorem isOk_err {ε α : Type} (e : ε) : (Except.error e : Except ε α).isOk = false := rfl

theorem parsePoint_isOk (p : Json) : (parsePoint p).isOk = pointOk p := by
  cases p with
  | arr xs =>
    match xs with
    | [] => rfl
    | [a] =>
      cases a <;> rfl
    | a :: b :: rest =>
      cases a <;> cases b <;> rfl
  | null => rfl
  | bool b => rfl
  | num q => rfl
  | str s => rfl
  | obj fs => rfl

theorem buildPoints_isOk (ps : List Json) :
    (buildPoints ps).isOk = ps.all pointOk := by
  induction ps with
  | nil => rfl
  | cons p rest ih =>
    rw [buildPoints, List.all_cons]
    cases hp : parsePoint p with
    | error e =>
      have hpo : pointOk p = false := by rw [← parsePoint_isOk, hp]; rfl
      rw [hpo]
      rfl
    | ok pt =>
      have hpo : pointOk p = true := by rw [← parsePoint_isOk, hp]; rfl
      rw [hpo, Bool.true_and, except_bind_ok]
      cases hr : buildPoints rest with
      | error e =>
        rw [hr] at ih
        rw [except_bind_err, ← ih]
      | ok pts =>
        rw [hr] at ih
        rw [except_bind_ok, ← ih]
        rfl

theorem buildRing_isOk (rc : Json) :
    (buildRing rc).isOk = rc.iterElems.all pointOk := by
  rw [buildRing, ← buildPoints_isOk]
  cases hb : buildPoints rc.iterElems <;> rfl

theorem buildRings_isOk (cs : List Json) :
    (buildRings cs).isOk = cs.all (fun rc => rc.iterElems.all pointOk) := by
  induction cs with
  | nil => rfl
  | cons c rest ih =>
    rw [buildRings, List.all_cons, ← buildRing_isOk]
    cases hc : buildRing c with
    | error e => rfl
    | ok r =>
      rw [except_bind_ok, isOk_ok, Bool.true_and, ← ih]
      cases hr : buildRings rest <;> rfl

theorem addPolygonE_isOk (coords : Json) :
    (addPolygonE coords).isOk = ringGroupOk coords := by
  rw [addPolygonE, ringGroupOk]
  cases hb : buildRings coords.iterElems with
  | error e =>
    have h := buildRings_isOk coords.iterElems
    rw [hb, isOk_err] at h
    rw [except_bind_err, isOk_err, ← h]
    simp
  | ok rs =>
    have h := buildRings_isOk coords.iterElems
    rw [hb, isOk_ok] at h
    rw [except_bind_ok, ← h, Bool.and_true]
    have hlen := buildRings_length coords.iterElems rs hb
    cases rs with
    | nil =>
      have : coords.iterElems = [] := List.length_eq_zero.mp (by rw [← hlen]; rfl)
      rw [this]
      rfl
    | cons r0 rest =>
      have hne : coords.iterElems ≠ [] := by
        intro hc
        rw [hc] at hlen
        cases hlen
      cases hce : coords.iterElems with
      | nil => exact absurd hce hne
      | cons x xs => rfl

theorem addPolygonToSuburb_isOk (s : Suburb) (coords : Json) :
    (addPolygonToSuburb s coords).isOk = ringGroupOk coords := by
  rw [addPolygonToSuburb, ← addPolygonE_isOk]
  cases h : addPolygonE coords <;> rfl

theorem addPolysList_isOk (s : Suburb) (cs : List Json) :
    (addPolysList s cs).isOk = cs.all ringGroupOk := by
  induction cs generalizing s with
  | nil => rfl
  | cons c rest ih =>
    rw [addPolysList, List.all_cons, ← addPolygonToSuburb_isOk s c]
    cases hc : addPolygonToSuburb s c with
    | error e => rfl
    | ok s' =>
      rw [except_bind_ok, isOk_ok, Bool.true_and]
      exact ih s'

theorem valueStrE_isOk_obj (fs : List (String × Json)) (k d : String)
    (hcont : (Json.obj fs).contains k = true) :
    (Json.valueStrE (Json.obj fs) k d).isOk = ((Json.obj fs).get k).isStr := by
  show (if (Json.obj fs).contains k then
      (match (Json.obj fs).get k with
        | Json.str s => Except.ok s
        | _ => Except.error ("type_error.302: type must be string"))
    else Except.ok d).isOk = ((Json.obj fs).get k).isStr
  rw [hcont, if_pos rfl]
  cases (Json.obj fs).get k <;> rfl


theorem detectNameFieldE_found (props : Json) (k : String)
    (hc : candidates.find? (fun k => props.contains k && (props.get k).isStr) = some k) :
    detectNameFieldE props = Except.ok k := by
  rw [detectNameFieldE, hc]

theorem regionNameE_isOk (props : Json) : (regionNameE props).isOk = nameStepOk props := by
  rw [nameStepOk]
  cases hc : candidates.find? (fun k => props.contains k && (props.get k).isStr) with
  | some k =>
    have hp : (props.contains k && (props.get k).isStr) = true := by
      have h0 := List.find?_some hc
      exact h0
    have hany : candidates.any (fun k => props.contains k && (props.get k).isStr) = true :=
      List.any_eq_true.mpr ⟨k, List.mem_of_find?_eq_some hc, hp⟩
    rw [hany, Bool.true_or]
    rw [regionNameE, detectNameFieldE_found props k hc, except_bind_ok]
    have hkne : ¬(k = "") := by
      have hall : ∀ k2 ∈ candidates, ¬(k2 = "") := by decide
      exact hall k (List.mem_of_find?_eq_some hc)
    rw [if_neg hkne]
    rw [Bool.and_eq_true] at hp
    cases props with
    | obj fs => rw [valueStrE_isOk_obj fs k ("UNKNOWN") hp.1, hp.2]
    | null => simp [Json.contains] at hp
    | bool b => simp [Json.contains] at hp
    | num q => simp [Json.contains] at hp
    | str s => simp [Json.contains] at hp
    | arr xs => simp [Json.contains] at hp
  | none =>
    have hany : candidates.any (fun k => props.contains k && (props.get k).isStr) = false := by
      rw [List.any_eq_false]
      intro k hk
      simpa using List.find?_eq_none.mp hc k hk
    rw [hany, Bool.false_or]
    rw [regionNameE, detectNameFieldE, hc]
    cases props with
    | obj fs =>
      show ((fallbackNameField (Json.obj fs)) >>= fun nameField =>
          if nameField = "" then Except.ok ("UNKNOWN")
          else Json.valueStrE (Json.obj fs) nameField ("UNKNOWN")).isOk
        = fallbackNameOk (Json.obj fs)
      rw [fallbackNameField, except_bind_ok]
      show (if (match fs.find? (fun kv => kv.2.isStr) with
            | some kv => kv.1
            | none => "") = "" then Except.ok ("UNKNOWN")
          else Json.valueStrE (Json.obj fs)
            (match fs.find? (fun kv => kv.2.isStr) with
              | some kv => kv.1
              | none => "") ("UNKNOWN")).isOk
        = (match fs.find? (fun kv => kv.2.isStr) with
           | some kv =>
             kv.1 == "" ||
             (match fs.find? (fun kv2 => kv2.1 == kv.1) with
              | some kv2 => kv2.2.isStr
              | none => true)
           | none => true)
      cases hkv : fs.find? (fun kv => kv.2.isStr) with
      | none => rfl
      | some kv =>
        show (if kv.1 = "" then Except.ok ("UNKNOWN")
            else Json.valueStrE (Json.obj fs) kv.1 ("UNKNOWN")).isOk
          = (kv.1 == "" ||
             (match fs.find? (fun kv2 => kv2.1 == kv.1) with
              | some kv2 => kv2.2.isStr
              | none => true))
        by_cases hek : kv.1 = ""
        · rw [if_pos hek]
          have hbeq : (kv.1 == "") = true := beq_iff_eq.mpr hek
          rw [hbeq, Bool.true_or]
          rfl
        · rw [if_neg hek]
          have hbeq : (kv.1 == "") = false := by
            rw [beq_eq_false_iff_ne]
            exact hek
          rw [hbeq, Bool.false_or]
          have hm : kv ∈ fs := List.mem_of_find?_eq_some hkv
          have hcont : (Json.obj fs).contains kv.1 = true := by
            simp only [Json.contains]
            exact List.any_eq_true.mpr ⟨kv, hm, by simp⟩
          rw [valueStrE_isOk_obj fs kv.1 ("UNKNOWN") hcont]
          cases hfk : fs.find? (fun kv2 => kv2.1 == kv.1) with
          | none =>
            have := List.find?_eq_none.mp hfk kv hm
            simp at this
          | some kv2 =>
            have hget : (Json.obj fs).get kv.1 = kv2.2 := by
              simp [Json.get, hfk]
            rw [hget]
    | null => rfl
    | bool b => rfl
    | num q => rfl
    | str s => rfl
    | arr xs =>
      show ((if (Json.arr xs).iterElems.any Json.isStr then
            Except.error ("invalid_iterator.207: cannot use key() with a non-object iterator")
          else Except.ok ("")) >>= fun nameField =>
          if nameField = "" then Except.ok ("UNKNOWN")
          else Json.valueStrE (Json.arr xs) nameField ("UNKNOWN")).isOk
        = !((Json.arr xs).iterElems.any Json.isStr)
      cases ha : ((Json.arr xs).iterElems.any Json.isStr) <;> rfl

theorem valueStrE_type_of_some (geom : Json) (t : String) (h : typeOfGeom geom = some t) :
    Json.valueStrE geom ("type") ("") = Except.ok t := by
  cases geom with
  | obj fs =>
    rw [typeOfGeom] at h
    show (if (Json.obj fs).contains ("type") then
        (match (Json.obj fs).get ("type") with
          | Json.str s => Except.ok s
          | _ => Except.error ("type_error.302: type must be string"))
      else Except.ok ("")) = Except.ok t
    split at h
    next hcond =>
      rw [if_pos hcond]
      split at h
      next sv heq => rw [Option.some.inj h]
      next hne => cases h
    next hcond =>
      rw [if_neg hcond, ← Option.some.inj h]
  | null => cases h
  | bool b => cases h
  | num q => cases h
  | str s => cases h
  | arr xs => cases h

theorem valueStrE_type_of_none (geom : Json) (h : typeOfGeom geom = none) :
    (Json.valueStrE geom ("type") ("")).isOk = false := by
  cases geom with
  | obj fs =>
    rw [typeOfGeom] at h
    show (if (Json.obj fs).contains ("type") then
        (match (Json.obj fs).get ("type") with
          | Json.str s => Except.ok s
          | _ => Except.error ("type_error.302: type must be string"))
      else Except.ok ("")).isOk = false
    split at h
    next hcond =>
      rw [if_pos hcond]
      split at h
      next sv heq => cases h
      next hne => rfl
    next hcond => cases h
  | null => rfl
  | bool b => rfl
  | num q => rfl
  | str s => rfl
  | arr xs => rfl

theorem featBody_isOk (geom props : Json) :
    ((Json.valueStrE geom ("type") ("")) >>= fun type =>
      (regionNameE props) >>= fun name =>
      (if type = "Polygon" then
        (addPolygonToSuburb ⟨name, [], big, big, -big, -big⟩ (geom.get ("coordinates"))) >>=
          fun s => Except.ok (some s)
      else if type = "MultiPolygon" then
        (addPolysList ⟨name, [], big, big, -big, -big⟩ (geom.get ("coordinates")).iterElems) >>=
          fun s => Except.ok (some s)
      else Except.ok none) : Except String (Option Suburb)).isOk
    = (match typeOfGeom geom with
       | none => false
       | some t =>
         nameStepOk props &&
         (if t = "Polygon" then ringGroupOk (geom.get ("coordinates"))
          else if t = "MultiPolygon" then (geom.get ("coordinates")).iterElems.all ringGroupOk
          else true)) := by
  cases ht : typeOfGeom geom with
  | none =>
    have h1 := valueStrE_type_of_none geom ht
    cases he : Json.valueStrE geom ("type") ("") with
    | ok t => rw [he, isOk_ok] at h1; cases h1
    | error e => rw [except_bind_err, isOk_err]
  | some t =>
    show ((Json.valueStrE geom ("type") ("")) >>= fun type =>
        (regionNameE props) >>= fun name =>
        (if type = "Polygon" then
          (addPolygonToSuburb ⟨name, [], big, big, -big, -big⟩ (geom.get ("coordinates"))) >>=
            fun s => Except.ok (some s)
        else if type = "MultiPolygon" then
          (addPolysList ⟨name, [], big, big, -big, -big⟩ (geom.get ("coordinates")).iterElems) >>=
            fun s => Except.ok (some s)
        else Except.ok none) : Except String (Option Suburb)).isOk
      = (nameStepOk props &&
         (if t = "Polygon" then ringGroupOk (geom.get ("coordinates"))
          else if t = "MultiPolygon" then (geom.get ("coordinates")).iterElems.all ringGroupOk
          else true))
    have h1 := valueStrE_type_of_some geom t ht
    rw [h1, except_bind_ok]
    cases hr : regionNameE props with
    | error e =>
      have h2 : nameStepOk props = false := by rw [← regionNameE_isOk, hr, isOk_err]
      rw [except_bind_err, h2, Bool.false_and, isOk_err]
    | ok name =>
      have h2 : nameStepOk props = true := by rw [← regionNameE_isOk, hr, isOk_ok]
      rw [except_bind_ok, h2, Bool.true_and]
      by_cases hp : t = "Polygon"
      · rw [if_pos hp, if_pos hp,
          ← addPolygonToSuburb_isOk ⟨name, [], big, big, -big, -big⟩ (geom.get ("coordinates"))]
        cases ha : addPolygonToSuburb ⟨name, [], big, big, -big, -big⟩
            (geom.get ("coordinates")) with
        | ok s => rw [except_bind_ok]; rfl
        | error e => rw [except_bind_err]; rfl
      · rw [if_neg hp, if_neg hp]
        by_cases hm : t = "MultiPolygon"
        · rw [if_pos hm, if_pos hm,
            ← addPolysList_isOk ⟨name, [], big, big, -big, -big⟩
              (geom.get ("coordinates")).iterElems]
          cases ha : addPolysList ⟨name, [], big, big, -big, -big⟩
              (geom.get ("coordinates")).iterElems with
          | ok s => rw [except_bind_ok]; rfl
          | error e => rw [except_bind_err]; rfl
        · rw [if_neg hm, if_neg hm, isOk_ok]

theorem processFeature_isOk (feat : Json) : (processFeature feat).isOk = featOk feat := by
  rw [processFeature, featOk]
  by_cases hg : (!(feat.contains ("geometry")) || (feat.get ("geometry")).isNull) = true
  · rw [if_pos hg, if_pos hg, isOk_ok]
  · rw [if_neg hg, if_neg hg]
    exact featBody_isOk (feat.get ("geometry")) (Json.valueJ feat ("properties") (Json.obj []))

theorem processFeature_skip_or_some (feat : Json) (hok : featOk feat = true) :
    (producesRegion feat = false ∧ processFeature feat = Except.ok none) ∨
    (producesRegion feat = true ∧ ∃ s, processFeature feat = Except.ok (some s)) := by
  by_cases hg : (!(feat.contains ("geometry")) || (feat.get ("geometry")).isNull) = true
  · left
    constructor
    · rcases Bool.or_eq_true_iff.mp hg with hc | hn
      · rw [Bool.not_eq_true'] at hc
        simp [producesRegion, hc]
      · simp [producesRegion, hn]
    · rw [processFeature, if_pos hg]
  · rw [featOk, if_neg hg] at hok
    have hok' : (match typeOfGeom (feat.get ("geometry")) with
        | none => false
        | some t =>
          nameStepOk (Json.valueJ feat ("properties") (Json.obj [])) &&
          (if t = "Polygon" then ringGroupOk ((feat.get ("geometry")).get ("coordinates"))
           else if t = "MultiPolygon" then
             ((feat.get ("geometry")).get ("coordinates")).iterElems.all ringGroupOk
           else true)) = true := hok
    rw [Bool.not_eq_true, Bool.or_eq_false_iff] at hg
    have hcont : feat.contains ("geometry") = true := by
      have := hg.1
      rw [Bool.not_eq_false'] at this
      exact this
    have hnull : (feat.get ("geometry")).isNull = false := hg.2
    cases ht : typeOfGeom (feat.get ("geometry")) with
    | none => rw [ht] at hok'; cases hok'
    | some t =>
      rw [ht] at hok'
      have hok2 : (nameStepOk (Json.valueJ feat ("properties") (Json.obj [])) &&
          (if t = "Polygon" then ringGroupOk ((feat.get ("geometry")).get ("coordinates"))
           else if t = "MultiPolygon" then
             ((feat.get ("geometry")).get ("coordinates")).iterElems.all ringGroupOk
           else true)) = true := hok'
      rw [Bool.and_eq_true] at hok2
      obtain ⟨hname, htypes⟩ := hok2
      have hguard : ¬((!(feat.contains ("geometry")) || (feat.get ("geometry")).isNull) = true) := by
        rw [Bool.or_eq_true_iff]
        rintro (hc | hn)
        · rw [hcont] at hc; cases hc
        · rw [hnull] at hn; cases hn
      have hbody : processFeature feat =
          ((Json.valueStrE (feat.get ("geometry")) ("type") ("")) >>= fun type =>
            (regionNameE (Json.valueJ feat ("properties") (Json.obj []))) >>= fun name =>
            (if type = "Polygon" then
              (addPolygonToSuburb ⟨name, [], big, big, -big, -big⟩
                ((feat.get ("geometry")).get ("coordinates"))) >>= fun s => Except.ok (some s)
            else if type = "MultiPolygon" then
              (addPolysList ⟨name, [], big, big, -big, -big⟩
                ((feat.get ("geometry")).get ("coordinates")).iterElems) >>=
                  fun s => Except.ok (some s)
            else Except.ok none)) := by
        rw [processFeature, if_neg hguard]
      rw [valueStrE_type_of_some (feat.get ("geometry")) t ht, except_bind_ok] at hbody
      cases hr : regionNameE (Json.valueJ feat ("properties") (Json.obj [])) with
      | error e =>
        rw [← regionNameE_isOk, hr, isOk_err] at hname
        cases hname
      | ok name =>
        rw [hr, except_bind_ok] at hbody
        by_cases hp : t = "Polygon"
        · right
          constructor
          · simp [producesRegion, hcont, hnull, ht, hp]
          · rw [if_pos hp] at hbody
            rw [if_pos hp] at htypes
            have hadd : (addPolygonToSuburb ⟨name, [], big, big, -big, -big⟩
                ((feat.get ("geometry")).get ("coordinates"))).isOk = true := by
              rw [addPolygonToSuburb_isOk]
              exact htypes
            cases ha : addPolygonToSuburb ⟨name, [], big, big, -big, -big⟩
                ((feat.get ("geometry")).get ("coordinates")) with
            | error e => rw [ha, isOk_err] at hadd; cases hadd
            | ok s =>
              rw [ha, except_bind_ok] at hbody
              exact ⟨s, hbody⟩
        · rw [if_neg hp] at hbody
          rw [if_neg hp] at htypes
          by_cases hm : t = "MultiPolygon"
          · right
            constructor
            · simp [producesRegion, hcont, hnull, ht, hm]
            · rw [if_pos hm] at hbody
              rw [if_pos hm] at htypes
              have hadd : (addPolysList ⟨name, [], big, big, -big, -big⟩
                  ((feat.get ("geometry")).get ("coordinates")).iterElems).isOk = true := by
                rw [addPolysList_isOk]
                exact htypes
              cases ha : addPolysList ⟨name, [], big, big, -big, -big⟩
                  ((feat.get ("geometry")).get ("coordinates")).iterElems with
              | error e => rw [ha, isOk_err] at hadd; cases hadd
              | ok s =>
                rw [ha, except_bind_ok] at hbody
                exact ⟨s, hbody⟩
          · left
            constructor
            · simp [producesRegion, hcont, hnull, ht, hp, hm]
            · rw [if_neg hm] at hbody
              exact hbody

theorem processFeatures_isOk (feats : List Json) (acc : List Suburb × Bounds) :
    (processFeatures feats acc).isOk = feats.all featOk := by
  induction feats generalizing acc with
  | nil => rfl
  | cons feat rest ih =>
    rw [List.all_cons, ← processFeature_isOk]
    show ((processFeature feat) >>= fun x =>
        match x with
        | none => processFeatures rest acc
        | some s => processFeatures rest
            (acc.1 ++ [s], bbUnion acc.2 ⟨s.minLon, s.minLat, s.maxLon, s.maxLat⟩)).isOk
      = ((processFeature feat).isOk && rest.all featOk)
    cases hp : processFeature feat with
    | error e => rw [except_bind_err, isOk_err, isOk_err, Bool.false_and]
    | ok x =>
      rw [except_bind_ok, isOk_ok, Bool.true_and]
      cases x with
      | none => exact ih acc
      | some s => exact ih _

theorem processFeatures_app (feats : List Json) (acc : List Suburb × Bounds)
    (hok : feats.all featOk = true) :
    ∃ suffix b, processFeatures feats acc = Except.ok (acc.1 ++ suffix, b) ∧
      suffix.isEmpty = !(feats.any producesRegion) := by
  induction feats generalizing acc with
  | nil =>
    refine ⟨[], acc.2, ?_, rfl⟩
    rw [List.append_nil]
    rfl
  | cons feat rest ih =>
    rw [List.all_cons, Bool.and_eq_true] at hok
    obtain ⟨h1, h2⟩ := hok
    rcases processFeature_skip_or_some feat h1 with ⟨hpr, hnone⟩ | ⟨hpr, s, hsome⟩
    · obtain ⟨suffix, b, heq, hemp⟩ := ih acc h2
      refine ⟨suffix, b, ?_, ?_⟩
      · show ((processFeature feat) >>= fun x =>
            match x with
            | none => processFeatures rest acc
            | some s => processFeatures rest
                (acc.1 ++ [s], bbUnion acc.2 ⟨s.minLon, s.minLat, s.maxLon, s.maxLat⟩))
          = Except.ok (acc.1 ++ suffix, b)
        rw [hnone, except_bind_ok]
        exact heq
      · rw [List.any_cons, hpr, Bool.false_or]
        exact hemp
    · obtain ⟨suffix, b, heq, hemp⟩ :=
        ih (acc.1 ++ [s], bbUnion acc.2 ⟨s.minLon, s.minLat, s.maxLon, s.maxLat⟩) h2
      refine ⟨s :: suffix, b, ?_, ?_⟩
      · show ((processFeature feat) >>= fun x =>
            match x with
            | none => processFeatures rest acc
            | some s => processFeatures rest
                (acc.1 ++ [s], bbUnion acc.2 ⟨s.minLon, s.minLat, s.maxLon, s.maxLat⟩))
          = Except.ok (acc.1 ++ s :: suffix, b)
        rw [hsome, except_bind_ok]
        show processFeatures rest
            (acc.1 ++ [s], bbUnion acc.2 ⟨s.minLon, s.minLat, s.maxLon, s.maxLat⟩)
          = Except.ok (acc.1 ++ s :: suffix, b)
        rw [heq]
        show Except.ok ((acc.1 ++ [s]) ++ suffix, b) = Except.ok (acc.1 ++ s :: suffix, b)
        rw [List.append_assoc]
        rfl
      · rw [List.any_cons, hpr, Bool.true_or]
        rfl

/-- C7 (corrected): `loadSuburbsGeoJSON` succeeds exactly when the input
parses, the document has a `features` array, every feature is well formed
(readable geometry `type`, non-throwing name resolution, and structurally
parseable area coordinates), and at least one feature produces a region.
Equivalently, ingestion fails iff the file is unreadable, the `features`
array is missing, some feature is malformed — a json exception aborts the
whole load — or zero regions are produced; the last disjunct confirms that
an all-non-area FeatureCollection is a fatal error, but the claim's "if and
only if" omits the malformed-feature failures. -/
theorem loadSuburbs_ok_iff (input : Option Json) :
    (loadSuburbs input).isOk = true ↔
    ∃ gj, input = some gj ∧ hasFeaturesArray gj = true ∧
      (∀ feat ∈ (gj.get ("features")).iterElems, featOk feat = true) ∧
      (∃ feat ∈ (gj.get ("features")).iterElems, producesRegion feat = true) := by
  cases input with
  | none =>
    show (Except.error ("Failed to open GeoJSON") :
        Except String (List Suburb × Bounds)).isOk = true ↔ _
    rw [isOk_err]
    constructor
    · intro h
      exact absurd h Bool.false_ne_true
    · rintro ⟨gj, hgj, -⟩
      exact Option.noConfusion hgj
  | some gj =>
    show (if (!(gj.contains ("features") && (gj.get ("features")).isArr)) = true then
        (Except.error ("Invalid GeoJSON (no features array)") :
          Except String (List Suburb × Bounds))
      else ((processFeatures (gj.get ("features")).iterElems ([], sentinelBounds)) >>=
        fun acc =>
          if acc.1 = [] then Except.error ("No suburb polygons loaded from GeoJSON")
          else Except.ok acc)).isOk = true ↔ _
    by_cases hf : hasFeaturesArray gj = true
    · have hc : (!(gj.contains ("features") && (gj.get ("features")).isArr)) = false := by
        rw [Bool.not_eq_false']
        exact hf
      rw [hc, if_neg Bool.false_ne_true]
      by_cases hall : ((gj.get ("features")).iterElems.all featOk) = true
      · obtain ⟨suffix, b, heq, hemp⟩ :=
          processFeatures_app (gj.get ("features")).iterElems ([], sentinelBounds) hall
        rw [heq, except_bind_ok]
        show (if suffix = [] then
            (Except.error ("No suburb polygons loaded from GeoJSON") :
              Except String (List Suburb × Bounds))
          else Except.ok ([] ++ suffix, b)).isOk = true ↔ _
        by_cases hs : suffix = []
        · rw [if_pos hs, isOk_err]
          constructor
          · intro h
            exact absurd h Bool.false_ne_true
          · rintro ⟨gj2, hgj2, hfa, hok, feat, hmem, hprod⟩
            have hg2 : gj = gj2 := Option.some.inj hgj2
            subst hg2
            have hany : (gj.get ("features")).iterElems.any producesRegion = true :=
              List.any_eq_true.mpr ⟨feat, hmem, hprod⟩
            rw [hs, hany] at hemp
            simp at hemp
        · rw [if_neg hs, isOk_ok]
          constructor
          · intro _
            refine ⟨gj, rfl, hf, List.all_eq_true.mp hall, ?_⟩
            have h1 : suffix.isEmpty = false := by
              cases suffix with
              | nil => exact absurd rfl hs
              | cons a l => rfl
            rw [h1] at hemp
            have hany : (gj.get ("features")).iterElems.any producesRegion = true := by
              cases hany2 : (gj.get ("features")).iterElems.any producesRegion with
              | true => rfl
              | false => rw [hany2] at hemp; simp at hemp
            obtain ⟨feat, hmem, hprod⟩ := List.any_eq_true.mp hany
            exact ⟨feat, hmem, hprod⟩
          · intro _
            rfl
      · have hpf : (processFeatures (gj.get ("features")).iterElems
            ([], sentinelBounds)).isOk = false := by
          rw [processFeatures_isOk]
          exact Bool.eq_false_iff.mpr hall
        cases hproc : processFeatures (gj.get ("features")).iterElems ([], sentinelBounds) with
        | ok acc => rw [hproc, isOk_ok] at hpf; cases hpf
        | error e =>
          rw [except_bind_err, isOk_err]
          constructor
          · intro h
            exact absurd h Bool.false_ne_true
          · rintro ⟨gj2, hgj2, hfa, hok, -⟩
            have hg2 : gj = gj2 := Option.some.inj hgj2
            subst hg2
            exact absurd (List.all_eq_true.mpr hok) hall
    · have hc : (!(gj.contains ("features") && (gj.get ("features")).isArr)) = true := by
        rw [Bool.not_eq_true']
        exact Bool.eq_false_iff.mpr hf
      rw [hc, if_pos rfl, isOk_err]
      constructor
      · intro h
        exact absurd h Bool.false_ne_true
      · rintro ⟨gj2, hgj2, hfa, -⟩
        have hg2 : gj = gj2 := Option.some.inj hgj2
        subst hg2
        exact absurd hfa hf

set_option maxRecDepth 10000 in
/-- C7 counterexample to the unamended claim: `docMalformed` parses, has a
`features` array, and contains an area feature that produces a region, so per
the claim ingestion should succeed; yet `loadSuburbsGeoJSON` fails, because
the second feature's non-numeric coordinate pair throws and aborts the load. -/
theorem loadSuburbs_fails_on_malformed_coordinates :
    (loadSuburbs (some docMalformed)).isOk = false ∧
    hasFeaturesArray docMalformed = true ∧
    (docMalformed.get ("features")).iterElems.any producesRegion = true := by
  refine ⟨?_, ?_, ?_⟩ <;> with_unfolding_all rfl
